import Mathlib

/- Shallow embedding of the Ingenic JZ47xx QEMU device models:
   hw/dma/ingenic_dmac.c, hw/timer/ingenic_tcu.c, hw/intc/ingenic_intc.c,
   hw/gpio/ingenic_gpio.c and hw/rtc/ingenic_rtc.c.

   Machine integers are modelled as Nat with explicit truncation (% 2 ^ 32,
   bit masks) exactly where the C code truncates.  Host-emulator services
   (qemu_set_irq, QEMUTimer arming, cpu_physical_memory_read/write, the host
   clocks) are modelled as explicit inputs and outputs: IRQ lines are Bool
   fields of the state, guest memory is a word oracle Nat -> Nat, elapsed
   clock ticks and host clock readings are oracle parameters, and qmp_stop
   is a Bool component of each operation's result. -/

/-- C BIT(n) macro: 1 << n. -/
def BIT (n : Nat) : Nat := 1 <<< n

def mask32 : Nat := 0xffffffff

def mask64 : Nat := 0xffffffffffffffff

/-- Bitwise complement of a 32-bit value (C unary ~ applied to uint32_t). -/
def compl32 (x : Nat) : Nat := mask32 ^^^ x

/-- Bitwise complement of a 64-bit value (C unary ~ applied to uint64_t). -/
def compl64 (x : Nat) : Nat := mask64 ^^^ x

/- ===================================================================== -/
/- hw/dma/ingenic_dmac.c                                                  -/
/- ===================================================================== -/

/-- Per-channel DMA state machine (enum ingenic_dmac_ch_state). -/
inductive DmacChState where
  | idle
  | desc
  | txfr
deriving DecidableEq, Repr

/-- Per-channel register file (struct IngenicDmac reg[].ch[]). -/
structure ChRegs where
  dsa : Nat
  dta : Nat
  dtc : Nat
  drt : Nat
  dcs : Nat
  dcm : Nat
  dda : Nat
  dsd : Nat
deriving DecidableEq, Repr

/-- sdp_map table of ingenic_dmac_channel_trigger (ingenic_dmac.c:149). -/
def sdp_map (i : Nat) : Nat :=
  match i with
  | 0 => 4
  | 1 => 1
  | 2 => 2
  | _ => 0

/-- tsz_map table of ingenic_dmac_channel_trigger (ingenic_dmac.c:152). -/
def tsz_map (i : Nat) : Nat :=
  match i with
  | 0 => 4
  | 1 => 1
  | 2 => 2
  | 3 => 16
  | 4 => 32
  | _ => 0

/-- Request-type dispatch of ingenic_dmac_channel_trigger (ingenic_dmac.c:174-193):
    the amount the transfer loop will move, or none for an unknown request type
    (log + qmp_stop).  REQ_AUTO = 8, REQ_NAND = 1, REQ_MSC0_TX = 26,
    REQ_MSC0_RX = 27, REQ_BCH_DEC = 3. -/
def req_avail (req size mscAvail : Nat) : Option Nat :=
  match req with
  | 8 => some size
  | 1 => some size
  | 26 => some (min size mscAvail)
  | 27 => some (min size mscAvail)
  | 3 => some size
  | _ => none

/-- Register-file effect of ingenic_dmac_channel_trigger (ingenic_dmac.c:112-314)
    on one channel.  The guest-memory traffic of the transfer loop never touches
    the register file, and the loop decrements both avail and size by the same
    len until avail reaches 0, so its register effect is size := size - avail.
    mscAvail stands for the host callback ingenic_msc_available(s->msc); bchErr
    stands for bit 0 of the BHINT word the REQ_BCH_DEC branch reads back from
    guest memory.  Result: new registers, new channel state, qmp_stop flag,
    and whether the transfer-complete branch (ingenic_dmac.c:290-313) ran. -/
def ingenic_dmac_channel_trigger (r : ChRegs) (mscAvail : Nat) (bchErr : Bool) :
    ChRegs × DmacChState × Bool × Bool :=
  let ndes := (r.dcs >>> 31) &&& 1
  let blast := (r.dcm >>> 25) &&& 1
  let vm := (r.dcm >>> 3) &&& 1
  let link := r.dcm &&& 1
  if (r.dcm >>> 6) &&& 1 = 1 then
    -- INV set: terminate
    (r, .idle, false, false)
  else if (r.dcm >>> 5) &&& 1 = 1 then
    -- stride mode unimplemented: log + qmp_stop
    (r, .idle, true, false)
  else
    let sp_b := sdp_map ((r.dcm >>> 14) &&& 3)
    let dp_b := sdp_map ((r.dcm >>> 12) &&& 3)
    let tsz_b := tsz_map ((r.dcm >>> 8) &&& 7)
    if sp_b = 0 ∨ dp_b = 0 ∨ tsz_b = 0 then
      -- invalid size: log + qmp_stop
      (r, .idle, true, false)
    else
      let size := r.dtc * tsz_b
      match req_avail r.drt size mscAvail with
      | none => (r, .idle, true, false)
      | some avail =>
        let size1 := size - avail
        let r1 := { r with dtc := size1 / tsz_b }
        -- REQ_BCH_DEC with BLAST writes the BCH status back and records the
        -- error bit in DCS bit 7 (ingenic_dmac.c:248-277)
        let r2 :=
          if r.drt = 3 ∧ blast = 1 then
            if bchErr then { r1 with dcs := r1.dcs ||| BIT 7 }
            else { r1 with dcs := r1.dcs &&& compl32 (BIT 7) }
          else r1
        if size1 ≠ 0 then
          (r2, .idle, false, false)
        else
          -- transfer complete (ingenic_dmac.c:290-313)
          let r3 := if vm = 1 then { r2 with dcm := r2.dcm &&& compl32 (BIT 4) } else r2
          let r4 := if link = 1 then { r3 with dcs := r3.dcs ||| BIT 1 }
                    else { r3 with dcs := r3.dcs ||| BIT 3 }
          (r4, if ndes = 1 ∨ link = 0 then .idle else .desc, false, true)

/-- The words of one descriptor as fetched by ingenic_dmac_parse_descriptor
    (ingenic_dmac.c:318-320): desc is zero-initialised, then nwords 32-bit
    words are read from guest physical memory at addr. -/
def desc_words (mem : Nat → Nat) (addr nwords : Nat) : Fin 8 → Nat :=
  fun i => if i.val < nwords then mem (addr + 4 * i.val) % 2 ^ 32 else 0

/-- Channel-register effect of ingenic_dmac_parse_descriptor
    (ingenic_dmac.c:316-381) given the fetched descriptor words.  The ddr and
    dirqp side effects are added by dmac_parse_step below.  The Bool result is
    the qmp_stop flag raised for unknown DCM fields (EOPM/TM); note the C code
    keeps going and still loads the registers after that qmp_stop. -/
def ingenic_dmac_parse_descriptor (r : ChRegs) (desc : Fin 8 → Nat) (nwords : Nat) :
    ChRegs × Bool :=
  let doa := desc 3 >>> 24
  let dtc := desc 3 &&& 0x00ffffff
  let v0 := (desc 0 >>> 4) &&& 1
  let vm := (desc 0 >>> 3) &&& 1
  let v := if vm = 0 then 1 else v0
  let eopm := (desc 0 >>> 27) &&& 1
  let tm := (desc 0 >>> 7) &&& 1
  let r1 := { r with
    dcs := (r.dcs &&& 0xc000009f) ||| (((r.dda >>> 4) &&& 0xff) <<< 16) |||
           ((if v = 1 then 0 else 1) <<< 6),
    dcm := desc 0 &&& 0xf2cff73f,
    dsa := desc 1,
    dta := desc 2,
    dtc := dtc,
    dda := (r.dda &&& 0xfffff000) ||| (doa <<< 4) }
  let r2 := if nwords ≥ 8 then { r1 with dsd := desc 4, drt := desc 5 &&& 0x3f } else r1
  (r2, decide (eopm = 1 ∨ tm = 1))

/-- Descriptor fetch done for a channel in the Desc state by
    ingenic_dmac_trigger_bh (ingenic_dmac.c:424-431), channel registers only:
    skipped entirely when NDES (DCS bit 31) is set, otherwise 4 or 8 words
    (8 when DCS bit 30 is set) are fetched from the address in DDA. -/
def ingenic_dmac_desc_fetch (r : ChRegs) (mem : Nat → Nat) : ChRegs × Bool :=
  if r.dcs &&& BIT 31 = 0 then
    let nwords := if r.dcs &&& BIT 30 ≠ 0 then 8 else 4
    ingenic_dmac_parse_descriptor r (desc_words mem r.dda nwords) nwords
  else (r, false)

/-- ingenic_dmac_wait_req (ingenic_dmac.c:383-416): the channel state chosen
    after a descriptor fetch.  mscPresent/mscAvail stand for the host MSC
    controller lookup and ingenic_msc_available.  REQ_NAND = 1,
    REQ_MSC0_TX = 26, REQ_MSC0_RX = 27, REQ_BCH_ENC = 2, REQ_BCH_DEC = 3,
    REQ_AUTO = 8. -/
def ingenic_dmac_wait_req (r : ChRegs) (mscPresent : Bool) (mscAvail : Nat) :
    DmacChState × Bool :=
  let v := r.dcs &&& BIT 6 = 0
  match r.drt with
  | 1 => (.idle, false)
  | 26 => if ¬mscPresent then (.idle, true)
          else if mscAvail ≠ 0 then (.txfr, false) else (.idle, false)
  | 27 => if ¬mscPresent then (.idle, true)
          else if mscAvail ≠ 0 then (.txfr, false) else (.idle, false)
  | 2 => (if v then .txfr else .idle, false)
  | 3 => (if v then .txfr else .idle, false)
  | 8 => (if v then .txfr else .idle, false)
  | _ => (.idle, true)

/-- Register block of one of the two DMA controllers (struct IngenicDmac
    reg[dmac]).  The C channel array has 6 entries; it is modelled as a total
    function, and every reachable access stays below index 6 (the MMIO decoder
    rejects ch >= 6 before the only branch that could compute a larger
    index). -/
structure DmacRegs where
  ch : Nat → ChRegs
  dmac : Nat
  dirqp : Nat
  ddr : Nat
  dcke : Nat

/-- Whole-device DMAC state: registers and channel state machines of both
    controllers (INGENIC_DMAC_NUM_DMAC = 2, INGENIC_DMAC_NUM_CH = 6). -/
structure DmacState where
  reg : Fin 2 → DmacRegs
  st : Fin 2 → Nat → DmacChState

def setCh (g : DmacRegs) (i : Nat) (r : ChRegs) : DmacRegs :=
  { g with ch := fun j => if j = i then r else g.ch j }

def setReg (s : DmacState) (d : Fin 2) (g : DmacRegs) : DmacState :=
  { s with reg := fun j => if j = d then g else s.reg j }

def setSt (s : DmacState) (d : Fin 2) (i : Nat) (v : DmacChState) : DmacState :=
  { s with st := fun j k => if j = d ∧ k = i then v else s.st j k }

/-- ingenic_dmac_reset (ingenic_dmac.c:65-88). -/
def ingenic_dmac_reset : DmacState :=
  { reg := fun _ =>
      { ch := fun _ => ⟨0, 0, 0, 0, 0, 0, 0, 0⟩,
        dmac := 0, dirqp := 0, ddr := 0, dcke := 0 },
    st := fun _ _ => .idle }

/-- ingenic_dmac_update_irq (ingenic_dmac.c:90-110): recompute channel ch's
    bit of dirqp.  The C local dirqp is a uint8_t, hence the &&& 0xff.  The
    qemu_set_irq call only reports !!dirqp outward and is not part of the
    register state. -/
def ingenic_dmac_update_irq (g : DmacRegs) (i : Nat) : DmacRegs :=
  let dirqp0 := (g.dirqp &&& compl32 (BIT i)) &&& 0xff
  let dcs := (g.ch i).dcs
  let dcm := (g.ch i).dcm
  let cond := (dcm &&& BIT 2 ≠ 0 ∧ dcs &&& BIT 6 ≠ 0) ∨
              (dcm &&& BIT 1 ≠ 0 ∧ dcs &&& BIT 3 ≠ 0) ∨
              dcs &&& BIT 4 ≠ 0
  { g with dirqp := if cond then dirqp0 ||| (1 <<< i) else dirqp0 }

/-- ingenic_dmac_channel_is_enabled (ingenic_dmac.c:440-449). -/
def ingenic_dmac_channel_is_enabled (g : DmacRegs) (i : Nat) : Bool :=
  if g.dmac &&& (BIT 3 ||| BIT 2 ||| BIT 0) ≠ BIT 0 then false
  else if (g.ch i).dcs &&& 0x5d ≠ 1 then false
  else true

/-- ingenic_dmac_write (ingenic_dmac.c:558-654).  data is the uint64_t MMIO
    value; stores into uint32_t registers truncate with % 2 ^ 32.  Result:
    new state and the qmp_stop flag. -/
def ingenic_dmac_write (s : DmacState) (addr data : Nat) : DmacState × Bool :=
  let dmi : Fin 2 := ⟨(addr / 0x100) % 2, Nat.mod_lt _ (by omega)⟩
  let chn := (addr % 0x100) / 0x20
  if addr ≤ 0x2ff then
    if chn ≥ 6 then
      -- invalid channel: log + qmp_stop
      (s, true)
    else if addr &&& 0xff ≥ 0xc0 then
      -- dead code: addr &&& 0xff >= 0xc0 forces chn >= 6, caught above.
      -- C recomputes ch = (ch - 0xc0) / INGENIC_DMAC_NUM_CH in uint32_t.
      let chn2 := ((chn + 2 ^ 32 - 0xc0) % 2 ^ 32) / 6
      if addr &&& 0xe0 = 0xc0 then
        (setReg s dmi (setCh (s.reg dmi) chn2
          { s.reg dmi |>.ch chn2 with dsd := data % 2 ^ 32 }), false)
      else (s, true)
    else
      let g := s.reg dmi
      let r := g.ch chn
      match addr &&& 0x1f with
      | 0x00 => (setReg s dmi (setCh g chn { r with dsa := data % 2 ^ 32 }), false)
      | 0x04 => (setReg s dmi (setCh g chn { r with dta := data % 2 ^ 32 }), false)
      | 0x08 => (setReg s dmi (setCh g chn { r with dtc := data &&& 0x00ffffff }), false)
      | 0x0c => (setReg s dmi (setCh g chn { r with drt := data &&& 0x3f }), false)
      | 0x10 =>
        let g1 := ingenic_dmac_update_irq (setCh g chn { r with dcs := data &&& 0xc0ff00df }) chn
        let s1 := setReg s dmi g1
        if ingenic_dmac_channel_is_enabled g1 chn then
          (setSt s1 dmi chn .desc, false)
        else
          (setSt s1 dmi chn .idle, false)
      | 0x14 =>
        (setReg s dmi (ingenic_dmac_update_irq
          (setCh g chn { r with dcm := data &&& 0xf2cff73f }) chn), false)
      | 0x18 => (setReg s dmi (setCh g chn { r with dda := data &&& 0xfffffff0 }), false)
      | _ => (s, true)
  else if addr ≤ 0x4ff then
    let dmi2 : Fin 2 := ⟨((addr - 0x300) / 0x100) % 2, Nat.mod_lt _ (by omega)⟩
    let g := s.reg dmi2
    match addr &&& 0xff with
    | 0x00 =>
      let g1 := { g with dmac := data &&& 0xf800030d }
      let stop := data &&& (BIT 2 ||| BIT 3) ≠ 0
      -- per-channel enable scan (ingenic_dmac.c:627-634)
      let s1 := setReg s dmi2 g1
      let s2 := { s1 with st := (fun j k =>
        if j = dmi2 ∧ k < 6 then
          (if ingenic_dmac_channel_is_enabled g1 k then .desc else .idle)
        else s1.st j k) }
      (s2, stop)
    | 0x04 => (s, false)
    | 0x0c => (setReg s dmi2 { g with ddr := (g.ddr ||| (data &&& 0x0f)) &&& 0xff }, false)
    | 0x10 => (setReg s dmi2 { g with dcke := data &&& 0x0f }, false)
    | _ => (s, true)
  else (s, true)

/-- ingenic_dmac_read (ingenic_dmac.c:480-556).  Returns the (unchanged)
    state, the data and the qmp_stop flag. -/
def ingenic_dmac_read (s : DmacState) (addr : Nat) : DmacState × Nat × Bool :=
  let dmi : Fin 2 := ⟨(addr / 0x100) % 2, Nat.mod_lt _ (by omega)⟩
  let chn := (addr % 0x100) / 0x20
  if addr ≤ 0x2ff then
    if chn ≥ 6 then (s, 0, true)
    else if addr &&& 0xff ≥ 0xc0 then
      let chn2 := ((chn + 2 ^ 32 - 0xc0) % 2 ^ 32) / 6
      if addr &&& 0xe0 = 0xc0 then (s, (s.reg dmi |>.ch chn2).dsd, false)
      else (s, 0, true)
    else
      let r := s.reg dmi |>.ch chn
      match addr &&& 0x1f with
      | 0x00 => (s, r.dsa, false)
      | 0x04 => (s, r.dta, false)
      | 0x08 => (s, r.dtc, false)
      | 0x0c => (s, r.drt, false)
      | 0x10 => (s, r.dcs, false)
      | 0x14 => (s, r.dcm, false)
      | 0x18 => (s, r.dda, false)
      | _ => (s, 0, true)
  else if addr ≤ 0x4ff then
    let dmi2 : Fin 2 := ⟨((addr - 0x300) / 0x100) % 2, Nat.mod_lt _ (by omega)⟩
    let g := s.reg dmi2
    match addr &&& 0xff with
    | 0x00 => (s, g.dmac, false)
    | 0x04 => (s, g.dirqp, false)
    | 0x08 => (s, g.ddr, false)
    | 0x10 => (s, g.dcke, false)
    | _ => (s, 0, true)
  else (s, 0, true)

/-- Full effect of the descriptor parse on one controller's register block:
    ingenic_dmac_parse_descriptor (ingenic_dmac.c:316-381) clears the channel's
    ddr bit (uint8_t field), loads the channel registers from the descriptor
    words and recomputes dirqp. -/
def dmac_parse_step_regs (g : DmacRegs) (i : Nat) (mem : Nat → Nat) : DmacRegs × Bool :=
  let g1 := { g with ddr := (g.ddr &&& compl32 (BIT i)) &&& 0xff }
  let (r1, stop) := ingenic_dmac_desc_fetch (g1.ch i) mem
  (ingenic_dmac_update_irq (setCh g1 i r1) i, stop)

/-- One channel's turn of ingenic_dmac_trigger_bh (ingenic_dmac.c:418-438),
    descriptor phase: fetch + parse when the channel is in the Desc state,
    then settle the state with ingenic_dmac_wait_req. -/
def dmac_desc_step (s : DmacState) (d : Fin 2) (i : Nat) (mem : Nat → Nat)
    (mscPresent : Bool) (mscAvail : Nat) : DmacState × Bool :=
  if s.st d i = .desc then
    let g := s.reg d
    let (g1, stop1) :=
      if (g.ch i).dcs &&& BIT 31 = 0 then dmac_parse_step_regs g i mem
      else (g, false)
    let (st1, stop2) := ingenic_dmac_wait_req (g1.ch i) mscPresent mscAvail
    (setSt (setReg s d g1) d i st1, stop1 || stop2)
  else (s, false)

/-- One channel's turn of ingenic_dmac_trigger_bh, transfer phase: run
    ingenic_dmac_channel_trigger when the channel is in the Txfr state; the
    completion branch recomputes dirqp (ingenic_dmac.c:303). -/
def dmac_txfr_step (s : DmacState) (d : Fin 2) (i : Nat) (mscAvail : Nat)
    (bchErr : Bool) : DmacState × Bool :=
  if s.st d i = .txfr then
    let g := s.reg d
    let (r1, st1, stop, completed) := ingenic_dmac_channel_trigger (g.ch i) mscAvail bchErr
    let g1 := setCh g i r1
    let g2 := if completed then ingenic_dmac_update_irq g1 i else g1
    (setSt (setReg s d g2) d i st1, stop)
  else (s, false)

/-- States of the DMAC reachable after reset by any sequence of guest register
    writes, descriptor fetches from guest memory and channel transfers. -/
inductive DmacReachable : DmacState → Prop where
  | reset : DmacReachable ingenic_dmac_reset
  | write (s : DmacState) (addr data : Nat) (h : DmacReachable s) :
      DmacReachable (ingenic_dmac_write s addr data).1
  | descStep (s : DmacState) (d : Fin 2) (i : Nat) (mem : Nat → Nat)
      (mscPresent : Bool) (mscAvail : Nat) (hi : i < 6) (h : DmacReachable s) :
      DmacReachable (dmac_desc_step s d i mem mscPresent mscAvail).1
  | txfrStep (s : DmacState) (d : Fin 2) (i : Nat) (mscAvail : Nat)
      (bchErr : Bool) (hi : i < 6) (h : DmacReachable s) :
      DmacReachable (dmac_txfr_step s d i mscAvail bchErr).1

/- ===================================================================== -/
/- hw/timer/ingenic_tcu.c                                                 -/
/- ===================================================================== -/

/-- QEMU clock period units (include/hw/clock.h): 2 ^ -32 ns per unit. -/
def CLOCK_PERIOD_FROM_NS_1 : Nat := 2 ^ 32

def CLOCK_PERIOD_1SEC : Nat := 1000000000 * CLOCK_PERIOD_FROM_NS_1

/-- struct IngenicTcuTimerCommon.  armed and armTargetNs model the host
    QEMUTimer qts: armed is true between timer_mod_anticipate_ns and
    timer_del / expiry. -/
structure TmrState where
  qtsStartNs : Int
  clkPeriod : Nat
  clkTicks : Nat
  top : Nat
  comp : Nat
  cnt : Nat
  irqTopMask : Nat
  irqCompMask : Nat
  enabled : Bool
  armed : Bool
  armTargetNs : Int
deriving DecidableEq, Repr

/-- struct IngenicTcuTimer (and the ost sub-struct): common timer state plus
    the TCSR register. -/
structure TcuTimer where
  tmr : TmrState
  tcsr : Nat
deriving DecidableEq, Repr

/-- struct IngenicTcu: TCU register block, the six general-purpose timers,
    the OST, the cached IRQ state and the three output lines. -/
structure TcuState where
  tstr : Nat
  tsr : Nat
  ter : Nat
  tfr : Nat
  tmr : Nat
  timer : Fin 6 → TcuTimer
  ost : TcuTimer
  irqState : Nat
  lines : Fin 3 → Bool
  model : Nat

/-- update_irq (ingenic_tcu.c:68-89): recompute tfr & ~tmr; when it changed,
    cache it and drive the three output lines (qemu_set_irq). -/
def update_irq (s : TcuState) : TcuState :=
  let irq := s.tfr &&& compl32 s.tmr
  if irq = s.irqState then s
  else
    { s with
      irqState := irq,
      lines := (fun i =>
        if s.model = 0x4755 then
          if i = 0 then decide (irq &&& 0x00008000 ≠ 0)
          else if i = 1 then decide (irq &&& 0x00200020 ≠ 0)
          else decide (irq &&& 0x001f001f ≠ 0)
        else
          if i = 0 then decide (irq &&& 0x00010001 ≠ 0)
          else if i = 1 then decide (irq &&& 0x00020002 ≠ 0)
          else decide (irq &&& 0x00fc00fc ≠ 0)) }

/-- One counting step of the tmr_update_cnt loop (ingenic_tcu.c:172):
    cnt = top == cnt ? 0 : cnt + 1, in uint32_t arithmetic. -/
def tmr_step (top c : Nat) : Nat := if top = c then 0 else (c + 1) % 2 ^ 32

/-- Match-flag contribution of one loop iteration (ingenic_tcu.c:164-169). -/
def tmr_hit_mask (top comp tm cm c : Nat) : Nat :=
  (if comp = c then cm else 0) ||| (if top = c then tm else 0)

/-- The counting loop of tmr_update_cnt (ingenic_tcu.c:163-175): starting at
    counter c with d remaining ticks, visit c and its d successors, collect
    the HALF/FULL match flags of every visited value, and return the final
    counter together with the collected irq mask. -/
def tmr_count_loop (top comp tm cm : Nat) : Nat → Nat → Nat × Nat
  | c, 0 => (c, tmr_hit_mask top comp tm cm c)
  | c, d + 1 =>
    let r := tmr_count_loop top comp tm cm (tmr_step top c) d
    (r.1, tmr_hit_mask top comp tm cm c ||| r.2)

/-- tmr_update_cnt (ingenic_tcu.c:140-182).  delta is the number of elapsed
    source-clock ticks the C code derives from qemu_clock_get_ns and
    clk_period (ingenic_tcu.c:144-158), passed in as a host-clock oracle;
    when the timer is not enabled the C code leaves delta_ticks = 0.  The
    qts_start_ns wrap-avoidance rebasing only re-expresses the same tick
    count and is absorbed into the oracle. -/
def tmr_update_cnt (delta : Nat) (t : TmrState) (s : TcuState) : TmrState × TcuState :=
  let d := if t.enabled then delta else 0
  let r := tmr_count_loop t.top t.comp t.irqTopMask t.irqCompMask t.cnt d
  let t1 := { t with cnt := r.1, clkTicks := t.clkTicks + d }
  let s1 := if r.2 ≠ 0 then update_irq { s with tfr := s.tfr ||| r.2 } else s
  (t1, s1)

/-- The en = false branch of tmr_enable (ingenic_tcu.c:194-196, 204):
    tmr_update_cnt, timer_del, enabled = false. -/
def tmr_enable_off (delta : Nat) (t : TmrState) (s : TcuState) : TmrState × TcuState :=
  let r := tmr_update_cnt delta t s
  ({ r.1 with armed := false, enabled := false }, r.2)

/-- tmr_schedule (ingenic_tcu.c:113-138).  A timer whose FULL value is 0 is
    turned off instead of being armed; otherwise the next HALF/FULL event is
    computed (uint64_t arithmetic for wrap - count - 1) and the host timer is
    armed via timer_mod_anticipate_ns, which only ever moves the deadline
    earlier when the timer is already pending. -/
def tmr_schedule (delta : Nat) (t : TmrState) (s : TcuState) : TmrState × TcuState :=
  if t.top = 0 then tmr_enable_off delta t s
  else
    let wrap : Nat := if t.cnt > t.top then 0x10000 else t.top + 1
    let lead := (wrap + 2 ^ 64 - t.cnt - 1) % 2 ^ 64
    let next_full := ((t.top + lead) % 2 ^ 64) % wrap
    let next_half := ((t.comp + lead) % 2 ^ 64) % wrap
    let delta_ticks := min next_half next_full + 1
    let max_ticks := CLOCK_PERIOD_1SEC / t.clkPeriod
    let target_ticks := t.clkTicks + min delta_ticks max_ticks
    let target_ns : Int := t.qtsStartNs +
      (target_ticks * t.clkPeriod / CLOCK_PERIOD_FROM_NS_1 : Nat)
    ({ t with
       armed := true,
       armTargetNs := if t.armed then min t.armTargetNs target_ns else target_ns }, s)

/-- tmr_enable (ingenic_tcu.c:192-205).  now is the qemu_clock_get_ns
    reading.  Note the en branch arms the timer via tmr_schedule before
    setting enabled, so the final tmr_update_cnt call sees the old enabled
    flag. -/
def tmr_enable (en : Bool) (delta : Nat) (now : Int) (t : TmrState) (s : TcuState) :
    TmrState × TcuState :=
  if en then
    let t0 := { t with qtsStartNs := now, clkTicks := 0 }
    let r1 := tmr_schedule delta t0 s
    let r2 := tmr_update_cnt delta r1.1 r1.2
    ({ r2.1 with enabled := true }, r2.2)
  else tmr_enable_off delta t s

/-- tmr_cb (ingenic_tcu.c:184-190): the QEMUTimer callback; on entry the host
    timer has expired (no longer pending), then the counter is updated and the
    timer rescheduled. -/
def tmr_cb (delta : Nat) (t : TmrState) (s : TcuState) : TmrState × TcuState :=
  let r1 := tmr_update_cnt delta { t with armed := false } s
  tmr_schedule delta r1.1 r1.2

def setTimer (s : TcuState) (i : Fin 6) (tim : TcuTimer) : TcuState :=
  { s with timer := fun j => if j = i then tim else s.timer j }

/-- ingenic_tcu_timer_read (ingenic_tcu.c:207-229) for timer i. -/
def ingenic_tcu_timer_read (delta : Nat) (s : TcuState) (i : Fin 6) (addr : Nat) :
    TcuState × Nat × Bool :=
  match addr &&& 0x0f with
  | 0x00 => (s, (s.timer i).tmr.top, false)
  | 0x04 => (s, (s.timer i).tmr.comp, false)
  | 0x08 =>
    let r := tmr_update_cnt delta (s.timer i).tmr s
    (setTimer r.2 i { r.2.timer i with tmr := r.1 }, r.1.cnt, false)
  | 0x0c => (s, (s.timer i).tcsr, false)
  | _ => (s, 0, true)

/-- ingenic_tcu_timer_write (ingenic_tcu.c:231-262) for timer i.  newPeriod
    is the clock period tmr_update_clk_period would fetch from the CGU for
    the new TCSR value (a host clock-tree lookup).  Note every path, the
    undecoded default included, ends with tmr_update_cnt. -/
def ingenic_tcu_timer_write (delta : Nat) (newPeriod : Nat) (s : TcuState) (i : Fin 6)
    (addr data : Nat) : TcuState × Bool :=
  let tim := s.timer i
  let upd : TcuTimer → Bool → TcuState × Bool := fun tim1 stop =>
    let r := tmr_update_cnt delta tim1.tmr (setTimer s i tim1)
    (setTimer r.2 i { r.2.timer i with tmr := r.1 }, stop)
  match addr &&& 0x0f with
  | 0x00 => upd { tim with tmr := { tim.tmr with top := data &&& 0xffff } } false
  | 0x04 => upd { tim with tmr := { tim.tmr with comp := data &&& 0xffff } } false
  | 0x08 => upd { tim with tmr := { tim.tmr with cnt := data &&& 0xffff } } false
  | 0x0c =>
    let diff := ((tim.tcsr ^^^ data) % 2 ^ 32) &&& 0x3f
    let tim1 := { tim with tcsr := data &&& 0x03bf }
    let tim2 := if diff ≠ 0 then { tim1 with tmr := { tim1.tmr with clkPeriod := newPeriod } }
                else tim1
    if data &&& BIT 10 ≠ 0 then
      upd { tim2 with tmr := { tim2.tmr with cnt := 0 } } true
    else
      upd tim2 false
  | _ => upd tim true

/-- ingenic_tcu_read (ingenic_tcu.c:272-319). -/
def ingenic_tcu_read (delta : Nat) (s : TcuState) (addr : Nat) : TcuState × Nat × Bool :=
  if h : 0x40 ≤ addr ∧ addr < 0xa0 then
    ingenic_tcu_timer_read delta s ⟨(addr - 0x40) / 0x10, by omega⟩ addr
  else
    match addr with
    | 0x10 => (s, s.ter, false)
    | 0x14 => (s, 0, false)
    | 0x18 => (s, 0, false)
    | 0x1c => (s, s.tsr, false)
    | 0x20 => (s, s.tfr, false)
    | 0x30 => (s, s.tmr, false)
    | 0xe0 => (s, s.ost.tmr.comp, false)
    | 0xe8 =>
      let r := tmr_update_cnt delta s.ost.tmr s
      ({ r.2 with ost := { r.2.ost with tmr := r.1 } }, r.1.cnt, false)
    | 0xec => (s, s.ost.tcsr, false)
    | 0xf0 => (s, s.tstr, false)
    | _ => (s, 0, true)

/-- One timer's turn in the TESR/TECR enable scan (ingenic_tcu.c:341-346). -/
def tcu_enable_one (delta : Nat) (now : Int) (s : TcuState) (i : Fin 6) : TcuState :=
  let en := decide (s.ter &&& BIT i.val ≠ 0)
  let r := tmr_enable en delta now (s.timer i).tmr s
  setTimer r.2 i { r.2.timer i with tmr := r.1 }

/-- The full TESR/TECR enable scan over the six timers and the OST
    (ingenic_tcu.c:341-350). -/
def tcu_ter_scan (delta : Nat) (now : Int) (diff : Nat) (s0 : TcuState) : TcuState :=
  let s1 := (List.finRange 6).foldl
    (fun s i => if diff &&& BIT i.val ≠ 0 then tcu_enable_one delta now s i else s) s0
  if diff &&& BIT 15 ≠ 0 then
    let en := decide (s1.ter &&& BIT 15 ≠ 0)
    let r := tmr_enable en delta now s1.ost.tmr s1
    { r.2 with ost := { r.2.ost with tmr := r.1 } }
  else s1

/-- ingenic_tcu_write (ingenic_tcu.c:321-400).  delta/now/newPeriod are the
    host clock oracles described above. -/
def ingenic_tcu_write_global (delta : Nat) (now : Int) (newPeriod : Nat) (s : TcuState)
    (addr data : Nat) : TcuState × Bool :=
  match addr with
  | 0x14 =>
    let diff := (s.ter ^^^ data) % 2 ^ 32
    let s1 := { s with ter := s.ter ||| (data &&& 0x803f) }
    (tcu_ter_scan delta now diff s1, false)
  | 0x18 =>
    let diff := (s.ter ^^^ data) % 2 ^ 32
    let s1 := { s with ter := s.ter &&& (compl64 data &&& 0x803f) }
    (tcu_ter_scan delta now diff s1, false)
  | 0x24 => (update_irq { s with tfr := s.tfr ||| (data &&& 0x003f803f) }, false)
  | 0x28 => (update_irq { s with tfr := s.tfr &&& (compl64 data &&& 0x003f803f) }, false)
  | 0x2c => ({ s with tsr := s.tsr ||| (data &&& 0x0001803f) }, false)
  | 0x3c => ({ s with tsr := s.tsr &&& (compl64 data &&& 0x0001803f) }, false)
  | 0x34 => ({ s with tmr := s.tmr ||| (data &&& 0x003f803f) }, false)
  | 0x38 => ({ s with tmr := s.tmr &&& (compl64 data &&& 0x003f803f) }, false)
  | 0xe0 =>
    let t1 := { s.ost.tmr with comp := data % 2 ^ 32 }
    let t2 := if s.ost.tcsr &&& BIT 15 = 0 then { t1 with top := data % 2 ^ 32 } else t1
    ({ s with ost := { s.ost with tmr := t2 } }, false)
  | 0xe8 => ({ s with ost := { s.ost with tmr := { s.ost.tmr with cnt := data % 2 ^ 32 } } }, false)
  | 0xec =>
    let diff := ((s.ost.tcsr ^^^ data) % 2 ^ 32) &&& 0x3f
    let tcsr1 := data &&& 0x823f
    let t1 := if diff ≠ 0 then { s.ost.tmr with clkPeriod := newPeriod } else s.ost.tmr
    let t2 := { t1 with top := if tcsr1 &&& BIT 15 ≠ 0 then 0xffffffff else t1.comp }
    ({ s with ost := { tmr := t2, tcsr := tcsr1 } }, false)
  | 0xf4 => ({ s with tstr := s.tstr ||| (data &&& 0x00060006) }, false)
  | 0xf8 => ({ s with tstr := s.tstr &&& (compl64 data &&& 0x00060006) }, false)
  | _ => (s, true)

/-- ingenic_tcu_write (ingenic_tcu.c:321-400): per-timer region at 0x40..0x9f,
    everything else decoded by the switch above. -/
def ingenic_tcu_write (delta : Nat) (now : Int) (newPeriod : Nat) (s : TcuState)
    (addr data : Nat) : TcuState × Bool :=
  if h : 0x40 ≤ addr ∧ addr < 0xa0 then
    ingenic_tcu_timer_write delta newPeriod s ⟨(addr - 0x40) / 0x10, by omega⟩ addr data
  else
    ingenic_tcu_write_global delta now newPeriod s addr data

/- ===================================================================== -/
/- hw/intc/ingenic_intc.c                                                 -/
/- ===================================================================== -/

/-- struct IngenicIntc: the three registers plus the single output IRQ line
    (line mirrors the level last passed to qemu_set_irq, initially low). -/
structure IntcState where
  icsr : Nat
  icmr : Nat
  icpr : Nat
  line : Bool
deriving DecidableEq, Repr

/-- intc_update (ingenic_intc.c:42-56): recompute ICPR = ICSR & ~ICMR and
    drive the output line when ICPR changed. -/
def intc_update (s : IntcState) : IntcState :=
  let icpr1 := s.icsr &&& compl32 s.icmr
  let diff := s.icpr ^^^ icpr1
  let s1 := { s with icpr := icpr1 }
  if diff ≠ 0 then { s1 with line := decide (icpr1 ≠ 0) } else s1

/-- ingenic_intc_reset (ingenic_intc.c:58-65).  The output line is not
    touched by reset. -/
def ingenic_intc_reset (s : IntcState) : IntcState :=
  { s with icsr := 0, icmr := 0xffffffff, icpr := 0 }

/-- ingenic_intc_read (ingenic_intc.c:67-88). -/
def ingenic_intc_read (s : IntcState) (addr : Nat) : Nat × Bool :=
  match addr with
  | 0x00 => (s.icsr, false)
  | 0x04 => (s.icmr, false)
  | 0x10 => (s.icpr, false)
  | _ => (0, true)

/-- ingenic_intc_write (ingenic_intc.c:90-116).  data is the uint64_t MMIO
    value; stores into the uint32_t icmr truncate with % 2 ^ 32. -/
def ingenic_intc_write (s : IntcState) (addr data : Nat) : IntcState × Bool :=
  match addr with
  | 0x08 => (intc_update { s with icmr := (s.icmr ||| data) % 2 ^ 32 }, false)
  | 0x0c => (intc_update { s with icmr := s.icmr &&& compl64 data }, false)
  | 0x10 => (s, false)
  | _ => (s, true)

/-- intc_irq (ingenic_intc.c:118-126): input line n changed to level. -/
def intc_irq (s : IntcState) (n : Fin 32) (level : Bool) : IntcState :=
  if level then intc_update { s with icsr := s.icsr ||| (1 <<< n.val) }
  else intc_update { s with icsr := s.icsr &&& compl32 (1 <<< n.val) }

/-- The machine starts with the fields zeroed and the output line low, then
    the device is reset before any guest access. -/
def intc_init : IntcState := ingenic_intc_reset { icsr := 0, icmr := 0, icpr := 0, line := false }

/-- Interrupt-controller states reachable from power-on by input IRQ line
    changes and guest register reads/writes (reads do not mutate). -/
inductive IntcReachable : IntcState → Prop where
  | init : IntcReachable intc_init
  | write (s : IntcState) (addr data : Nat) (hd : data < 2 ^ 32) (h : IntcReachable s) :
      IntcReachable (ingenic_intc_write s addr data).1
  | irq (s : IntcState) (n : Fin 32) (level : Bool) (h : IntcReachable s) :
      IntcReachable (intc_irq s n level)

/- ===================================================================== -/
/- hw/gpio/ingenic_gpio.c                                                 -/
/- ===================================================================== -/

/-- struct IngenicGpio.  gfun is the C field fun (a reserved word here);
    prevIrqLevel mirrors the level last driven on the irq-out line. -/
structure GpioState where
  pin : Nat
  dat : Nat
  im : Nat
  pe : Nat
  gfun : Nat
  sel : Nat
  dir : Nat
  trg : Nat
  flg : Nat
  pendingRaise : Nat
  pendingFall : Nat
  prevIrqLevel : Bool
deriving DecidableEq, Repr

/-- ingenic_gpio_update_irq (ingenic_gpio.c:70-94): latch edge- and
    level-triggered interrupt flags and drive the irq-out line. -/
def ingenic_gpio_update_irq (s : GpioState) (prevPin : Nat) : GpioState :=
  let imask := compl32 s.gfun &&& s.sel
  let edge := s.trg
  let dir := s.dir
  let f1 := s.flg ||| (imask &&& edge &&& dir &&& (s.pin &&& compl32 prevPin))
  let f2 := f1 ||| (imask &&& edge &&& compl32 dir &&& (compl32 s.pin &&& prevPin))
  let f3 := f2 ||| (imask &&& compl32 edge &&& dir &&& s.pin)
  let f4 := f3 ||| (imask &&& compl32 edge &&& compl32 dir &&& compl32 s.pin)
  let irq := decide (compl32 s.im &&& f4 ≠ 0)
  let s1 := { s with flg := f4 }
  if irq ≠ s.prevIrqLevel then { s1 with prevIrqLevel := irq } else s1

/-- ingenic_gpio_reset (ingenic_gpio.c:56-68); resetPins is the reset
    property value. -/
def ingenic_gpio_reset (s : GpioState) (resetPins : Nat) : GpioState :=
  { s with
    pin := resetPins,
    dat := 0x00000000,
    im := 0xffffffff,
    pe := 0,
    gfun := 0,
    sel := 0,
    dir := 0,
    trg := 0,
    flg := 0 }

/-- ingenic_gpio_read (ingenic_gpio.c:96-149).  A PAPIN read returns the
    current pin levels, then applies at most one latched pending transition
    per pin; all other decoded reads are pure. -/
def ingenic_gpio_read (s : GpioState) (addr size : Nat) : GpioState × Nat × Bool :=
  if size ≠ 4 ∨ addr % 4 ≠ 0 then (s, 0, true)
  else
    match addr with
    | 0x00 =>
      let to_raise := s.pendingRaise &&& compl32 s.pin
      let to_fall := s.pendingFall &&& s.pin
      ({ s with
         pin := (s.pin ||| to_raise) &&& compl32 to_fall,
         pendingRaise := s.pendingRaise &&& compl32 to_raise,
         pendingFall := s.pendingFall &&& compl32 to_fall }, s.pin, false)
    | 0x10 => (s, s.dat, false)
    | 0x20 => (s, s.im, false)
    | 0x30 => (s, s.pe, false)
    | 0x40 => (s, s.gfun, false)
    | 0x50 => (s, s.sel, false)
    | 0x60 => (s, s.dir, false)
    | 0x70 => (s, s.trg, false)
    | 0x80 => (s, s.flg, false)
    | _ => (s, 0, true)

/-- ingenic_gpio_write (ingenic_gpio.c:151-215).  data is the uint64_t MMIO
    value.  Every decoded write ends with ingenic_gpio_update_irq(gpio,
    gpio->pin); the undecoded default returns before it. -/
def ingenic_gpio_write (s : GpioState) (addr data size : Nat) : GpioState × Bool :=
  if size ≠ 4 ∨ addr % 4 ≠ 0 then (s, true)
  else
    let upd : GpioState → GpioState × Bool := fun s1 =>
      (ingenic_gpio_update_irq s1 s1.pin, false)
    match addr with
    | 0x14 => upd { s with dat := (s.dat ||| data) % 2 ^ 32, flg := s.flg &&& compl64 data }
    | 0x18 => upd { s with dat := s.dat &&& compl64 data }
    | 0x24 => upd { s with im := (s.im ||| data) % 2 ^ 32 }
    | 0x28 => upd { s with im := s.im &&& compl64 data }
    | 0x34 => upd { s with pe := (s.pe ||| data) % 2 ^ 32 }
    | 0x38 => upd { s with pe := s.pe &&& compl64 data }
    | 0x44 => upd { s with gfun := (s.gfun ||| data) % 2 ^ 32 }
    | 0x48 => upd { s with gfun := s.gfun &&& compl64 data }
    | 0x54 => upd { s with sel := (s.sel ||| data) % 2 ^ 32 }
    | 0x58 => upd { s with sel := s.sel &&& compl64 data }
    | 0x64 => upd { s with dir := (s.dir ||| data) % 2 ^ 32 }
    | 0x68 => upd { s with dir := s.dir &&& compl64 data }
    | 0x74 => upd { s with trg := (s.trg ||| data) % 2 ^ 32 }
    | 0x78 => upd { s with trg := s.trg &&& compl64 data }
    | _ => (s, true)

/-- ingenic_gpio_input_irq (ingenic_gpio.c:223-238): input pin n changed to
    level; the transition is also latched into pending_raise/pending_fall. -/
def ingenic_gpio_input_irq (s : GpioState) (n : Fin 32) (level : Bool) : GpioState :=
  let mask := 1 <<< n.val
  let val := if level then mask else 0
  let s1 := { s with
    pin := (s.pin &&& compl32 mask) ||| val,
    pendingRaise := if level then s.pendingRaise ||| mask else s.pendingRaise,
    pendingFall := if level then s.pendingFall else s.pendingFall ||| mask }
  ingenic_gpio_update_irq s1 s.pin

/- ===================================================================== -/
/- hw/rtc/ingenic_rtc.c                                                   -/
/- ===================================================================== -/

/-- struct IngenicRtc register fields. -/
structure RtcState where
  rtccr : Nat
  rtcsr : Nat
  rtcsar : Nat
  rtcgr : Nat
  hspr : Nat
  hwfcr : Nat
  hrcr : Nat
  hwcr : Nat
deriving DecidableEq, Repr

/-- get_clock_realtime() / 1000000000: the host real-time clock reading in
    whole seconds; t is the host clock in nanoseconds. -/
def sec_of_ns (t : Nat) : Nat := t / 1000000000

/-- ingenic_rtc_read (ingenic_rtc.c:55-96) at host time t ns. -/
def ingenic_rtc_read (t : Nat) (s : RtcState) (addr : Nat) : Nat × Bool :=
  match addr with
  | 0x00 => (s.rtccr, false)
  | 0x04 => ((((sec_of_ns t : Int) - s.rtcsr) % 2 ^ 32).toNat, false)
  | 0x08 => (s.rtcsar, false)
  | 0x0c => (s.rtcgr, false)
  | 0x20 => (0, false)
  | 0x24 => (s.hwfcr, false)
  | 0x28 => (s.hrcr, false)
  | 0x2c => (s.hwcr, false)
  | 0x30 => (0, false)
  | 0x34 => (s.hspr, false)
  | _ => (0, true)

/-- ingenic_rtc_write (ingenic_rtc.c:98-139) at host time t ns. -/
def ingenic_rtc_write (t : Nat) (s : RtcState) (addr data : Nat) : RtcState × Bool :=
  match addr with
  | 0x00 => ({ s with rtccr := (data &&& 0x2f) ||| BIT 7 }, false)
  | 0x04 => ({ s with rtcsr := (((sec_of_ns t : Int) - data) % 2 ^ 32).toNat }, false)
  | 0x08 => ({ s with rtcsar := data % 2 ^ 32 }, false)
  | 0x0c => (if s.rtcgr &&& BIT 31 = 0 then { s with rtcgr := data &&& 0x83ffffff } else s, false)
  | 0x20 => (s, false)
  | 0x24 => ({ s with hwfcr := data &&& 0xffe0 }, false)
  | 0x28 => ({ s with hrcr := data &&& 0x0fe0 }, false)
  | 0x2c => ({ s with hwcr := data &&& 0x01 }, false)
  | 0x30 => (s, false)
  | 0x34 => ({ s with hspr := data % 2 ^ 32 }, false)
  | _ => (s, true)

/- ===================================================================== -/
/- Specification predicates used by the claim theorems                    -/
/- ===================================================================== -/

/-- The property of claim C5 at one channel: writing v to DTC, DRT, DCS, DCM
    and DDA of channel c of controller d stores exactly the masked value
    (bits 23:0 for DTC, bits 5:0 for DRT, masks 0xc0ff00df / 0xf2cff73f /
    0xfffffff0 for DCS / DCM / DDA), and reading the same register back
    returns that masked stored value. -/
def DmacWriteMaskSpec (s : DmacState) (d : Fin 2) (c v : Nat) : Prop :=
  ((((ingenic_dmac_write s (d.val * 0x100 + c * 0x20 + 0x08) v).1.reg d).ch c).dtc = v % 2 ^ 24 ∧
   (ingenic_dmac_read (ingenic_dmac_write s (d.val * 0x100 + c * 0x20 + 0x08) v).1
     (d.val * 0x100 + c * 0x20 + 0x08)).2.1 = v % 2 ^ 24) ∧
  ((((ingenic_dmac_write s (d.val * 0x100 + c * 0x20 + 0x0c) v).1.reg d).ch c).drt = v % 2 ^ 6 ∧
   (ingenic_dmac_read (ingenic_dmac_write s (d.val * 0x100 + c * 0x20 + 0x0c) v).1
     (d.val * 0x100 + c * 0x20 + 0x0c)).2.1 = v % 2 ^ 6) ∧
  ((((ingenic_dmac_write s (d.val * 0x100 + c * 0x20 + 0x10) v).1.reg d).ch c).dcs = v &&& 0xc0ff00df ∧
   (ingenic_dmac_read (ingenic_dmac_write s (d.val * 0x100 + c * 0x20 + 0x10) v).1
     (d.val * 0x100 + c * 0x20 + 0x10)).2.1 = v &&& 0xc0ff00df) ∧
  ((((ingenic_dmac_write s (d.val * 0x100 + c * 0x20 + 0x14) v).1.reg d).ch c).dcm = v &&& 0xf2cff73f ∧
   (ingenic_dmac_read (ingenic_dmac_write s (d.val * 0x100 + c * 0x20 + 0x14) v).1
     (d.val * 0x100 + c * 0x20 + 0x14)).2.1 = v &&& 0xf2cff73f) ∧
  ((((ingenic_dmac_write s (d.val * 0x100 + c * 0x20 + 0x18) v).1.reg d).ch c).dda = v &&& 0xfffffff0 ∧
   (ingenic_dmac_read (ingenic_dmac_write s (d.val * 0x100 + c * 0x20 + 0x18) v).1
     (d.val * 0x100 + c * 0x20 + 0x18)).2.1 = v &&& 0xfffffff0)

/-- Width facts of one channel register file: DTC bits 31:24 zero, DRT bits
    31:6 zero, DDA bits 3:0 zero. -/
def ChWidthInv (r : ChRegs) : Prop :=
  r.dtc < 2 ^ 24 ∧ r.drt < 2 ^ 6 ∧ r.dda % 2 ^ 4 = 0

/-- The claim's invariant over the whole register file. -/
def DmacWidthInv (s : DmacState) : Prop :=
  ∀ (d : Fin 2) (i : Nat), i < 6 → ChWidthInv ((s.reg d).ch i)

/-- Width facts over one controller's channel array. -/
def RegsWidthInv (g : DmacRegs) : Prop := ∀ i, i < 6 → ChWidthInv (g.ch i)

/-- What claim C1 says a descriptor fetch loads: with NDES clear the channel
    reads n = 4 or 8 words (8 when DCS bit 30 is set) at the address in DDA
    and loads DCM (masked 0xf2cff73f), DSA, DTA, DTC (low 24 bits of word 3),
    the DOA byte of word 3 into DDA bits 11:4 (bits 3:0 cleared, bits 31:12
    kept), and for 8-word descriptors DSD and DRT (low 6 bits of word 5). -/
def DmacFetchSpec (rr : ChRegs) (mem : Nat → Nat) : Prop :=
  let n := if rr.dcs &&& BIT 30 ≠ 0 then 8 else 4
  let w := desc_words mem rr.dda n
  let rf := (ingenic_dmac_desc_fetch rr mem).1
  rf.dcm = w 0 &&& 0xf2cff73f ∧
  rf.dsa = w 1 ∧
  rf.dta = w 2 ∧
  rf.dtc = w 3 % 2 ^ 24 ∧
  rf.dda % 2 ^ 4 = 0 ∧
  rf.dda / 2 ^ 4 % 2 ^ 8 = w 3 >>> 24 ∧
  (rr.dda < 2 ^ 32 → rf.dda / 2 ^ 12 = rr.dda / 2 ^ 12) ∧
  (n = 8 → rf.dsd = w 4 ∧ rf.drt = w 5 % 2 ^ 6) ∧
  (n = 4 → rf.dsd = rr.dsd ∧ rf.drt = rr.drt)

/-- What claim C1 says about a completed transfer: with LINK (DCM bit 0) set
    the controller sets CT (DCS bit 1), with LINK clear it sets TT (DCS bit
    3); the channel goes to the descriptor-fetch state exactly when LINK is
    set and NDES (DCS bit 31) is clear, and otherwise returns to idle; and
    the subsequent descriptor fetch loads the registers as in DmacFetchSpec. -/
def DmacChainSpec (r : ChRegs) (mscAvail : Nat) (bchErr : Bool) (mem : Nat → Nat) : Prop :=
  let res := ingenic_dmac_channel_trigger r mscAvail bchErr
  (r.dcm &&& 1 = 1 → res.1.dcs.testBit 1 = true) ∧
  (r.dcm &&& 1 = 0 → res.1.dcs.testBit 3 = true) ∧
  res.2.1 = (if (r.dcs >>> 31) &&& 1 = 0 ∧ r.dcm &&& 1 = 1
             then DmacChState.desc else DmacChState.idle) ∧
  res.1.dda = r.dda ∧
  res.2.2.1 = false ∧
  ((r.dcs >>> 31) &&& 1 = 0 → r.dcm &&& 1 = 1 → DmacFetchSpec res.1 mem)

/-- Offsets decoded by ingenic_dmac_read (ingenic_dmac.c:480-556); everything
    else falls into a qmp_stop default.  The DSD branch at 0xc0..0xff is dead
    code: those offsets give channel index 6 or 7, rejected first. -/
def dmac_read_decoded (addr : Nat) : Prop :=
  (addr ≤ 0x2ff ∧ (addr % 0x100) / 0x20 < 6 ∧
    (addr &&& 0x1f = 0x00 ∨ addr &&& 0x1f = 0x04 ∨ addr &&& 0x1f = 0x08 ∨
     addr &&& 0x1f = 0x0c ∨ addr &&& 0x1f = 0x10 ∨ addr &&& 0x1f = 0x14 ∨
     addr &&& 0x1f = 0x18)) ∨
  (0x300 ≤ addr ∧ addr ≤ 0x4ff ∧
    (addr &&& 0xff = 0x00 ∨ addr &&& 0xff = 0x04 ∨ addr &&& 0xff = 0x08 ∨
     addr &&& 0xff = 0x10))

/-- Offsets decoded by ingenic_dmac_write (ingenic_dmac.c:558-654). -/
def dmac_write_decoded (addr : Nat) : Prop :=
  (addr ≤ 0x2ff ∧ (addr % 0x100) / 0x20 < 6 ∧
    (addr &&& 0x1f = 0x00 ∨ addr &&& 0x1f = 0x04 ∨ addr &&& 0x1f = 0x08 ∨
     addr &&& 0x1f = 0x0c ∨ addr &&& 0x1f = 0x10 ∨ addr &&& 0x1f = 0x14 ∨
     addr &&& 0x1f = 0x18)) ∨
  (0x300 ≤ addr ∧ addr ≤ 0x4ff ∧
    (addr &&& 0xff = 0x00 ∨ addr &&& 0xff = 0x04 ∨ addr &&& 0xff = 0x0c ∨
     addr &&& 0xff = 0x10))

/-- Offsets decoded by ingenic_tcu_read (ingenic_tcu.c:272-319). -/
def tcu_read_decoded (addr : Nat) : Prop :=
  (0x40 ≤ addr ∧ addr < 0xa0 ∧
    (addr &&& 0x0f = 0x00 ∨ addr &&& 0x0f = 0x04 ∨ addr &&& 0x0f = 0x08 ∨
     addr &&& 0x0f = 0x0c)) ∨
  addr = 0x10 ∨ addr = 0x14 ∨ addr = 0x18 ∨ addr = 0x1c ∨ addr = 0x20 ∨
  addr = 0x30 ∨ addr = 0xe0 ∨ addr = 0xe8 ∨ addr = 0xec ∨ addr = 0xf0

/-- Offsets outside the per-timer region decoded by ingenic_tcu_write
    (ingenic_tcu.c:321-400). -/
def tcu_write_decoded_global (addr : Nat) : Prop :=
  addr = 0x14 ∨ addr = 0x18 ∨ addr = 0x24 ∨ addr = 0x28 ∨ addr = 0x2c ∨
  addr = 0x3c ∨ addr = 0x34 ∨ addr = 0x38 ∨ addr = 0xe0 ∨ addr = 0xe8 ∨
  addr = 0xec ∨ addr = 0xf4 ∨ addr = 0xf8

/-- The set/clear algebra of claim C6, with the PADATS/PAFLG interaction
    amended: after a PADATS write the flag register holds the cleared value
    re-or-ed with the level-trigger terms recomputed by
    ingenic_gpio_update_irq (the edge terms vanish because prev_pin is the
    current pin). -/
def GpioSetClearSpec (s : GpioState) (v : Nat) : Prop :=
  ((ingenic_gpio_read (ingenic_gpio_write s 0x14 v 4).1 0x10 4).2.1 = s.dat ||| v ∧
   (ingenic_gpio_read (ingenic_gpio_write s 0x18 v 4).1 0x10 4).2.1 = s.dat &&& compl32 v ∧
   (ingenic_gpio_write (ingenic_gpio_write s 0x14 v 4).1 0x14 v 4).1.dat =
     (ingenic_gpio_write s 0x14 v 4).1.dat ∧
   (ingenic_gpio_write (ingenic_gpio_write s 0x18 v 4).1 0x18 v 4).1.dat =
     (ingenic_gpio_write s 0x18 v 4).1.dat) ∧
  ((ingenic_gpio_read (ingenic_gpio_write s 0x24 v 4).1 0x20 4).2.1 = s.im ||| v ∧
   (ingenic_gpio_read (ingenic_gpio_write s 0x28 v 4).1 0x20 4).2.1 = s.im &&& compl32 v ∧
   (ingenic_gpio_write (ingenic_gpio_write s 0x24 v 4).1 0x24 v 4).1.im =
     (ingenic_gpio_write s 0x24 v 4).1.im ∧
   (ingenic_gpio_write (ingenic_gpio_write s 0x28 v 4).1 0x28 v 4).1.im =
     (ingenic_gpio_write s 0x28 v 4).1.im) ∧
  ((ingenic_gpio_read (ingenic_gpio_write s 0x34 v 4).1 0x30 4).2.1 = s.pe ||| v ∧
   (ingenic_gpio_read (ingenic_gpio_write s 0x38 v 4).1 0x30 4).2.1 = s.pe &&& compl32 v ∧
   (ingenic_gpio_write (ingenic_gpio_write s 0x34 v 4).1 0x34 v 4).1.pe =
     (ingenic_gpio_write s 0x34 v 4).1.pe ∧
   (ingenic_gpio_write (ingenic_gpio_write s 0x38 v 4).1 0x38 v 4).1.pe =
     (ingenic_gpio_write s 0x38 v 4).1.pe) ∧
  ((ingenic_gpio_read (ingenic_gpio_write s 0x44 v 4).1 0x40 4).2.1 = s.gfun ||| v ∧
   (ingenic_gpio_read (ingenic_gpio_write s 0x48 v 4).1 0x40 4).2.1 = s.gfun &&& compl32 v ∧
   (ingenic_gpio_write (ingenic_gpio_write s 0x44 v 4).1 0x44 v 4).1.gfun =
     (ingenic_gpio_write s 0x44 v 4).1.gfun ∧
   (ingenic_gpio_write (ingenic_gpio_write s 0x48 v 4).1 0x48 v 4).1.gfun =
     (ingenic_gpio_write s 0x48 v 4).1.gfun) ∧
  ((ingenic_gpio_read (ingenic_gpio_write s 0x54 v 4).1 0x50 4).2.1 = s.sel ||| v ∧
   (ingenic_gpio_read (ingenic_gpio_write s 0x58 v 4).1 0x50 4).2.1 = s.sel &&& compl32 v ∧
   (ingenic_gpio_write (ingenic_gpio_write s 0x54 v 4).1 0x54 v 4).1.sel =
     (ingenic_gpio_write s 0x54 v 4).1.sel ∧
   (ingenic_gpio_write (ingenic_gpio_write s 0x58 v 4).1 0x58 v 4).1.sel =
     (ingenic_gpio_write s 0x58 v 4).1.sel) ∧
  ((ingenic_gpio_read (ingenic_gpio_write s 0x64 v 4).1 0x60 4).2.1 = s.dir ||| v ∧
   (ingenic_gpio_read (ingenic_gpio_write s 0x68 v 4).1 0x60 4).2.1 = s.dir &&& compl32 v ∧
   (ingenic_gpio_write (ingenic_gpio_write s 0x64 v 4).1 0x64 v 4).1.dir =
     (ingenic_gpio_write s 0x64 v 4).1.dir ∧
   (ingenic_gpio_write (ingenic_gpio_write s 0x68 v 4).1 0x68 v 4).1.dir =
     (ingenic_gpio_write s 0x68 v 4).1.dir) ∧
  ((ingenic_gpio_read (ingenic_gpio_write s 0x74 v 4).1 0x70 4).2.1 = s.trg ||| v ∧
   (ingenic_gpio_read (ingenic_gpio_write s 0x78 v 4).1 0x70 4).2.1 = s.trg &&& compl32 v ∧
   (ingenic_gpio_write (ingenic_gpio_write s 0x74 v 4).1 0x74 v 4).1.trg =
     (ingenic_gpio_write s 0x74 v 4).1.trg ∧
   (ingenic_gpio_write (ingenic_gpio_write s 0x78 v 4).1 0x78 v 4).1.trg =
     (ingenic_gpio_write s 0x78 v 4).1.trg) ∧
  (ingenic_gpio_write s 0x14 v 4).1.flg =
    (s.flg &&& compl32 v)
      ||| (compl32 s.gfun &&& s.sel &&& compl32 s.trg &&& s.dir &&& s.pin)
      ||| (compl32 s.gfun &&& s.sel &&& compl32 s.trg &&& compl32 s.dir &&& compl32 s.pin)

/- ===================================================================== -/
/- Bit-arithmetic helper lemmas                                           -/
/- ===================================================================== -/

theorem and_0x0f_eq_mod (x : Nat) : x &&& 0x0f = x % 2 ^ 4 := by
  have h : (0x0f : Nat) = 2 ^ 4 - 1 := by norm_num
  rw [h, Nat.and_pow_two_sub_one_eq_mod]

theorem and_0x1f_eq_mod (x : Nat) : x &&& 0x1f = x % 2 ^ 5 := by
  have h : (0x1f : Nat) = 2 ^ 5 - 1 := by norm_num
  rw [h, Nat.and_pow_two_sub_one_eq_mod]

theorem and_0x3f_eq_mod (x : Nat) : x &&& 0x3f = x % 2 ^ 6 := by
  have h : (0x3f : Nat) = 2 ^ 6 - 1 := by norm_num
  rw [h, Nat.and_pow_two_sub_one_eq_mod]

theorem and_0xff_eq_mod (x : Nat) : x &&& 0xff = x % 2 ^ 8 := by
  have h : (0xff : Nat) = 2 ^ 8 - 1 := by norm_num
  rw [h, Nat.and_pow_two_sub_one_eq_mod]

theorem and_0xffff_eq_mod (x : Nat) : x &&& 0xffff = x % 2 ^ 16 := by
  have h : (0xffff : Nat) = 2 ^ 16 - 1 := by norm_num
  rw [h, Nat.and_pow_two_sub_one_eq_mod]

theorem and_0xffffff_eq_mod (x : Nat) : x &&& 0x00ffffff = x % 2 ^ 24 := by
  have h : (0x00ffffff : Nat) = 2 ^ 24 - 1 := by norm_num
  rw [h, Nat.and_pow_two_sub_one_eq_mod]

theorem mask_hi_eq : (0xfffff000 : Nat) = (2 ^ 20 - 1) <<< 12 := by
  norm_num [Nat.shiftLeft_eq]

theorem tb_mask_hi (i : Nat) :
    Nat.testBit 0xfffff000 i = (decide (12 ≤ i) && decide (i - 12 < 20)) := by
  rw [mask_hi_eq, Nat.testBit_shiftLeft, Nat.testBit_two_pow_sub_one]

theorem tb_mask32 (i : Nat) : Nat.testBit mask32 i = decide (i < 32) := by
  have h : mask32 = 2 ^ 32 - 1 := by norm_num [mask32]
  rw [h, Nat.testBit_two_pow_sub_one]

theorem tb_mask64 (i : Nat) : Nat.testBit mask64 i = decide (i < 64) := by
  have h : mask64 = 2 ^ 64 - 1 := by norm_num [mask64]
  rw [h, Nat.testBit_two_pow_sub_one]

/-- Low four bits of the DDA value produced by a descriptor load are zero. -/
theorem dda_parse_low (a d : Nat) : ((a &&& 0xfffff000) ||| (d <<< 4)) % 2 ^ 4 = 0 := by
  apply Nat.eq_of_testBit_eq
  intro i
  simp only [Nat.testBit_mod_two_pow, Nat.testBit_or, Nat.testBit_land,
    Nat.testBit_shiftLeft, Nat.zero_testBit, tb_mask_hi]
  rcases lt_or_ge i 4 with h | h
  · have h1 : ¬ (12 ≤ i) := by omega
    have h2 : ¬ (4 ≤ i) := by omega
    simp [h1, h2]
  · have h3 : ¬ (i < 4) := by omega
    simp [h3]

/-- Bits 11:4 of the DDA value produced by a descriptor load hold the DOA
    byte. -/
theorem dda_parse_mid (a d : Nat) (hd : d < 2 ^ 8) :
    (((a &&& 0xfffff000) ||| (d <<< 4)) / 2 ^ 4) % 2 ^ 8 = d := by
  apply Nat.eq_of_testBit_eq
  intro i
  rw [← Nat.shiftRight_eq_div_pow]
  simp only [Nat.testBit_mod_two_pow, Nat.testBit_shiftRight, Nat.testBit_or,
    Nat.testBit_land, Nat.testBit_shiftLeft, tb_mask_hi]
  rcases lt_or_ge i 8 with h | h
  · have h1 : ¬ (12 ≤ 4 + i) := by omega
    have h2 : (4 : Nat) ≤ 4 + i := by omega
    have h3 : 4 + i - 4 = i := by omega
    simp [h, h1, h2, h3]
  · have h1 : ¬ (i < 8) := by omega
    have h2 : d.testBit i = false :=
      Nat.testBit_lt_two_pow (lt_of_lt_of_le hd (Nat.pow_le_pow_right (by norm_num) h))
    simp [h1, h2]

/-- Bits 31:12 of the DDA value are preserved by a descriptor load. -/
theorem dda_parse_high (a d : Nat) (ha : a < 2 ^ 32) (hd : d < 2 ^ 8) :
    ((a &&& 0xfffff000) ||| (d <<< 4)) / 2 ^ 12 = a / 2 ^ 12 := by
  apply Nat.eq_of_testBit_eq
  intro i
  rw [← Nat.shiftRight_eq_div_pow, ← Nat.shiftRight_eq_div_pow]
  simp only [Nat.testBit_shiftRight, Nat.testBit_or, Nat.testBit_shiftLeft,
    Nat.testBit_land, tb_mask_hi]
  rcases lt_or_ge i 20 with h | h
  · have h1 : (12 : Nat) ≤ 12 + i := by omega
    have h2 : 12 + i - 12 = i := by omega
    have h4 : d.testBit (12 + i - 4) = false := by
      apply Nat.testBit_lt_two_pow
      exact lt_of_lt_of_le hd (Nat.pow_le_pow_right (by norm_num) (by omega))
    simp [h1, h2, h, h4]
  · have h1 : a.testBit (12 + i) = false := by
      apply Nat.testBit_lt_two_pow
      exact lt_of_lt_of_le ha (Nat.pow_le_pow_right (by norm_num) (by omega))
    have h4 : d.testBit (12 + i - 4) = false := by
      apply Nat.testBit_lt_two_pow
      exact lt_of_lt_of_le hd (Nat.pow_le_pow_right (by norm_num) (by omega))
    have h3 : ¬ (12 + i - 12 < 20) := by omega
    simp [h1, h3, h4]

/-- C ~x & x = 0 on uint32_t values. -/
theorem and_compl32_self (x : Nat) (hx : x < 2 ^ 32) : x &&& compl32 x = 0 := by
  apply Nat.eq_of_testBit_eq
  intro i
  simp only [compl32, Nat.testBit_land, Nat.testBit_xor, tb_mask32, Nat.zero_testBit]
  rcases lt_or_ge i 32 with h | h
  · cases hb : x.testBit i <;> simp [h, hb]
  · have hb : x.testBit i = false :=
      Nat.testBit_lt_two_pow (lt_of_lt_of_le hx (Nat.pow_le_pow_right (by norm_num) h))
    simp [hb]

theorem compl32_and_self (x : Nat) (hx : x < 2 ^ 32) : compl32 x &&& x = 0 := by
  rw [Nat.and_comm]
  exact and_compl32_self x hx

/-- On uint32_t operands, masking with a 64-bit complement equals masking
    with the 32-bit complement. -/
theorem and_compl64_eq_and_compl32 (a v : Nat) (ha : a < 2 ^ 32) :
    a &&& compl64 v = a &&& compl32 (v % 2 ^ 32) := by
  apply Nat.eq_of_testBit_eq
  intro i
  simp only [compl64, compl32, Nat.testBit_land, Nat.testBit_xor, tb_mask32, tb_mask64,
    Nat.testBit_mod_two_pow]
  rcases lt_or_ge i 32 with h | h
  · have h64 : i < 64 := by omega
    simp [h, h64]
  · have hb : a.testBit i = false :=
      Nat.testBit_lt_two_pow (lt_of_lt_of_le ha (Nat.pow_le_pow_right (by norm_num) h))
    simp [hb]

/- ===================================================================== -/
/- Claim C5: DMAC per-channel register write masking                       -/
/- ===================================================================== -/

theorem dmac_ch_addr_decode (d c off : Nat) (hd : d < 2) (hc : c < 6) (hoff : off < 0x20) :
    d * 0x100 + c * 0x20 + off ≤ 0x2ff ∧
    ((d * 0x100 + c * 0x20 + off) % 0x100) / 0x20 = c ∧
    (d * 0x100 + c * 0x20 + off) &&& 0x1f = off ∧
    (d * 0x100 + c * 0x20 + off) &&& 0xff = c * 0x20 + off ∧
    (d * 0x100 + c * 0x20 + off) / 0x100 % 2 = d := by
  refine ⟨by omega, by omega, ?_, ?_, by omega⟩
  · rw [and_0x1f_eq_mod]; omega
  · rw [and_0xff_eq_mod]; omega

/-- C5: for every 32-bit value written to a DMAC per-channel register, the
    stored field equals the written value under that register's bit-mask
    (DTC keeps bits 23:0, DRT bits 5:0, DCS the 0xc0ff00df bits, DCM the
    0xf2cff73f bits, DDA the 0xfffffff0 bits), and a subsequent read of the
    same register returns exactly the masked stored value. -/
theorem dmac_channel_write_read_masks (s : DmacState) (d : Fin 2) (c v : Nat)
    (hc : c < 6) (hv : v < 2 ^ 32) : DmacWriteMaskSpec s d c v := by
  have hd := d.isLt
  have hc6b : ¬ 6 ≤ c := by omega
  refine ⟨?_, ?_, ?_, ?_, ?_⟩
  · obtain ⟨h1, h2, h3, h4, h5⟩ := dmac_ch_addr_decode d.val c 0x08 hd hc (by norm_num)
    have hc6 : ¬ (d.val * 0x100 + c * 0x20 + 0x08) % 0x100 / 0x20 ≥ 6 := by omega
    have hcc0 : ¬ (d.val * 0x100 + c * 0x20 + 0x08) &&& 0xff ≥ 0xc0 := by rw [h4]; omega
    have hccn : ¬ 184 ≤ c * 32 := by omega
    constructor <;>
      simp [ingenic_dmac_write, ingenic_dmac_read, setReg, setCh,
        h1, h2, h3, h4, h5, hc6, hcc0, hccn, hc6b, Fin.ext_iff, and_0xffffff_eq_mod]
  · obtain ⟨h1, h2, h3, h4, h5⟩ := dmac_ch_addr_decode d.val c 0x0c hd hc (by norm_num)
    have hc6 : ¬ (d.val * 0x100 + c * 0x20 + 0x0c) % 0x100 / 0x20 ≥ 6 := by omega
    have hcc0 : ¬ (d.val * 0x100 + c * 0x20 + 0x0c) &&& 0xff ≥ 0xc0 := by rw [h4]; omega
    have hccn : ¬ 180 ≤ c * 32 := by omega
    constructor <;>
      simp [ingenic_dmac_write, ingenic_dmac_read, setReg, setCh,
        h1, h2, h3, h4, h5, hc6, hcc0, hccn, hc6b, Fin.ext_iff, and_0x3f_eq_mod]
  · obtain ⟨h1, h2, h3, h4, h5⟩ := dmac_ch_addr_decode d.val c 0x10 hd hc (by norm_num)
    have hc6 : ¬ (d.val * 0x100 + c * 0x20 + 0x10) % 0x100 / 0x20 ≥ 6 := by omega
    have hcc0 : ¬ (d.val * 0x100 + c * 0x20 + 0x10) &&& 0xff ≥ 0xc0 := by rw [h4]; omega
    have hccn : ¬ 176 ≤ c * 32 := by omega
    constructor <;>
      simp [ingenic_dmac_write, ingenic_dmac_read, setReg, setCh, setSt,
        ingenic_dmac_update_irq, ingenic_dmac_channel_is_enabled,
        h1, h2, h3, h4, h5, hc6, hcc0, hccn, hc6b, Fin.ext_iff] <;>
      split <;> simp [Fin.ext_iff]
  · obtain ⟨h1, h2, h3, h4, h5⟩ := dmac_ch_addr_decode d.val c 0x14 hd hc (by norm_num)
    have hc6 : ¬ (d.val * 0x100 + c * 0x20 + 0x14) % 0x100 / 0x20 ≥ 6 := by omega
    have hcc0 : ¬ (d.val * 0x100 + c * 0x20 + 0x14) &&& 0xff ≥ 0xc0 := by rw [h4]; omega
    have hccn : ¬ 172 ≤ c * 32 := by omega
    constructor <;>
      simp [ingenic_dmac_write, ingenic_dmac_read, setReg, setCh,
        ingenic_dmac_update_irq,
        h1, h2, h3, h4, h5, hc6, hcc0, hccn, hc6b, Fin.ext_iff]
  · obtain ⟨h1, h2, h3, h4, h5⟩ := dmac_ch_addr_decode d.val c 0x18 hd hc (by norm_num)
    have hc6 : ¬ (d.val * 0x100 + c * 0x20 + 0x18) % 0x100 / 0x20 ≥ 6 := by omega
    have hcc0 : ¬ (d.val * 0x100 + c * 0x20 + 0x18) &&& 0xff ≥ 0xc0 := by rw [h4]; omega
    have hccn : ¬ 168 ≤ c * 32 := by omega
    constructor <;>
      simp [ingenic_dmac_write, ingenic_dmac_read, setReg, setCh,
        h1, h2, h3, h4, h5, hc6, hcc0, hccn, hc6b, Fin.ext_iff]

/-- Witness for C5 at a concrete state and value. -/
theorem dmac_channel_write_read_masks_witness :
    (3 : Nat) < 6 ∧ (0x12345678 : Nat) < 2 ^ 32 ∧
    DmacWriteMaskSpec ingenic_dmac_reset 1 3 0x12345678 :=
  ⟨by decide, by decide,
   dmac_channel_write_read_masks ingenic_dmac_reset 1 3 0x12345678 (by decide) (by decide)⟩

/- ===================================================================== -/
/- Claim C9: DMAC register-width invariant                                 -/
/- ===================================================================== -/

theorem and_fff0_mod16 (x : Nat) : (x &&& 0xfffffff0) % 2 ^ 4 = 0 := by
  rw [← and_0x0f_eq_mod, Nat.and_assoc]
  rw [show ((0xfffffff0 : Nat) &&& 0x0f) = 0 by decide]
  exact Nat.and_zero x

theorem chWidthInv_trigger (r : ChRegs) (msc : Nat) (bchErr : Bool) (h : ChWidthInv r) :
    ChWidthInv (ingenic_dmac_channel_trigger r msc bchErr).1 := by
  obtain ⟨h1, h2, h3⟩ := h
  have hdiv : ∀ t a : Nat, t ≠ 0 → (r.dtc * t - a) / t < 2 ^ 24 := by
    intro t a ht
    calc (r.dtc * t - a) / t ≤ r.dtc * t / t := Nat.div_le_div_right (Nat.sub_le _ _)
      _ = r.dtc := Nat.mul_div_cancel _ (Nat.pos_of_ne_zero ht)
      _ < 2 ^ 24 := h1
  unfold ingenic_dmac_channel_trigger
  dsimp only
  split
  · exact ⟨h1, h2, h3⟩
  split
  · exact ⟨h1, h2, h3⟩
  split
  · exact ⟨h1, h2, h3⟩
  next hsz =>
    have htsz : tsz_map ((r.dcm >>> 8) &&& 7) ≠ 0 := fun hz => hsz (Or.inr (Or.inr hz))
    repeat' split
    all_goals first
      | exact ⟨h1, h2, h3⟩
      | exact ⟨hdiv _ _ htsz, h2, h3⟩

theorem chWidthInv_parse (r : ChRegs) (desc : Fin 8 → Nat) (nwords : Nat)
    (h : ChWidthInv r) : ChWidthInv (ingenic_dmac_parse_descriptor r desc nwords).1 := by
  obtain ⟨h1, h2, h3⟩ := h
  unfold ingenic_dmac_parse_descriptor
  dsimp only
  split
  · refine ⟨?_, ?_, dda_parse_low _ _⟩
    · rw [and_0xffffff_eq_mod]
      exact Nat.mod_lt _ (by norm_num)
    · rw [and_0x3f_eq_mod]
      exact Nat.mod_lt _ (by norm_num)
  · refine ⟨?_, h2, dda_parse_low _ _⟩
    rw [and_0xffffff_eq_mod]
    exact Nat.mod_lt _ (by norm_num)

theorem chWidthInv_fetch (r : ChRegs) (mem : Nat → Nat) (h : ChWidthInv r) :
    ChWidthInv (ingenic_dmac_desc_fetch r mem).1 := by
  unfold ingenic_dmac_desc_fetch
  dsimp only
  split
  · exact chWidthInv_parse r _ _ h
  · exact h

theorem regsWidthInv_setCh (g : DmacRegs) (i : Nat) (r : ChRegs)
    (hg : RegsWidthInv g) (hr : ChWidthInv r) : RegsWidthInv (setCh g i r) := by
  intro j hj
  simp only [setCh]
  split
  · exact hr
  · exact hg j hj

theorem regsWidthInv_update_irq (g : DmacRegs) (i : Nat) (hg : RegsWidthInv g) :
    RegsWidthInv (ingenic_dmac_update_irq g i) := by
  intro j hj
  simp only [ingenic_dmac_update_irq]
  exact hg j hj

theorem dmacWidthInv_setReg (s : DmacState) (d : Fin 2) (g : DmacRegs)
    (hs : DmacWidthInv s) (hg : RegsWidthInv g) : DmacWidthInv (setReg s d g) := by
  intro e i hi
  simp only [setReg]
  split
  · exact hg i hi
  · exact hs e i hi

theorem dmacWidthInv_st (s : DmacState) (f : Fin 2 → Nat → DmacChState)
    (hs : DmacWidthInv s) : DmacWidthInv { s with st := f } :=
  fun d i hi => hs d i hi

theorem dmacWidthInv_setSt (s : DmacState) (d : Fin 2) (i : Nat) (v : DmacChState)
    (hs : DmacWidthInv s) : DmacWidthInv (setSt s d i v) :=
  fun e j hj => hs e j hj

theorem dmacWidthInv_write (s : DmacState) (addr data : Nat) (h : DmacWidthInv s) :
    DmacWidthInv (ingenic_dmac_write s addr data).1 := by
  unfold ingenic_dmac_write
  dsimp only
  split
  · -- channel register range
    split
    · exact h
    next hchn =>
      have hchn6 : (addr % 0x100) / 0x20 < 6 := by omega
      split
      next hc0 =>
        -- dead branch: addr &&& 0xff >= 0xc0 forces channel >= 6
        exfalso
        rw [and_0xff_eq_mod] at hc0
        omega
      next =>
        split
        · exact dmacWidthInv_setReg s _ _ h
            (regsWidthInv_setCh _ _ _ (fun i hi => h _ i hi)
              ⟨(h _ _ hchn6).1, (h _ _ hchn6).2.1, (h _ _ hchn6).2.2⟩)
        · exact dmacWidthInv_setReg s _ _ h
            (regsWidthInv_setCh _ _ _ (fun i hi => h _ i hi)
              ⟨(h _ _ hchn6).1, (h _ _ hchn6).2.1, (h _ _ hchn6).2.2⟩)
        · -- DTC
          refine dmacWidthInv_setReg s _ _ h
            (regsWidthInv_setCh _ _ _ (fun i hi => h _ i hi) ?_)
          refine ⟨?_, (h _ _ hchn6).2.1, (h _ _ hchn6).2.2⟩
          rw [and_0xffffff_eq_mod]
          exact Nat.mod_lt _ (by norm_num)
        · -- DRT
          refine dmacWidthInv_setReg s _ _ h
            (regsWidthInv_setCh _ _ _ (fun i hi => h _ i hi) ?_)
          refine ⟨(h _ _ hchn6).1, ?_, (h _ _ hchn6).2.2⟩
          rw [and_0x3f_eq_mod]
          exact Nat.mod_lt _ (by norm_num)
        · -- DCS
          split <;>
            exact dmacWidthInv_setSt _ _ _ _
              (dmacWidthInv_setReg s _ _ h
                (regsWidthInv_update_irq _ _
                  (regsWidthInv_setCh _ _ _ (fun i hi => h _ i hi)
                    ⟨(h _ _ hchn6).1, (h _ _ hchn6).2.1, (h _ _ hchn6).2.2⟩)))
        · -- DCM
          exact dmacWidthInv_setReg s _ _ h
            (regsWidthInv_update_irq _ _
              (regsWidthInv_setCh _ _ _ (fun i hi => h _ i hi)
                ⟨(h _ _ hchn6).1, (h _ _ hchn6).2.1, (h _ _ hchn6).2.2⟩))
        · -- DDA
          refine dmacWidthInv_setReg s _ _ h
            (regsWidthInv_setCh _ _ _ (fun i hi => h _ i hi) ?_)
          exact ⟨(h _ _ hchn6).1, (h _ _ hchn6).2.1, and_fff0_mod16 _⟩
        · exact h
  · split
    · -- global register range
      split
      · -- DMAC control register
        exact dmacWidthInv_st _ _ (dmacWidthInv_setReg s _ _ h (fun i hi => h _ i hi))
      · exact h
      · exact dmacWidthInv_setReg s _ _ h (fun i hi => h _ i hi)
      · exact dmacWidthInv_setReg s _ _ h (fun i hi => h _ i hi)
      · exact h
    · exact h

theorem dmacWidthInv_desc_step (s : DmacState) (d : Fin 2) (i : Nat) (mem : Nat → Nat)
    (mscPresent : Bool) (mscAvail : Nat) (hi : i < 6) (h : DmacWidthInv s) :
    DmacWidthInv (dmac_desc_step s d i mem mscPresent mscAvail).1 := by
  unfold dmac_desc_step dmac_parse_step_regs
  dsimp only
  split
  · split
    · apply dmacWidthInv_setSt
      apply dmacWidthInv_setReg s _ _ h
      apply regsWidthInv_update_irq
      refine regsWidthInv_setCh _ _ _ (fun j hj => h d j hj) ?_
      exact chWidthInv_fetch _ _ (h d i hi)
    · apply dmacWidthInv_setSt
      exact dmacWidthInv_setReg s _ _ h (fun j hj => h d j hj)
  · exact h

theorem dmacWidthInv_txfr_step (s : DmacState) (d : Fin 2) (i : Nat) (mscAvail : Nat)
    (bchErr : Bool) (hi : i < 6) (h : DmacWidthInv s) :
    DmacWidthInv (dmac_txfr_step s d i mscAvail bchErr).1 := by
  unfold dmac_txfr_step
  dsimp only
  split
  · split
    · apply dmacWidthInv_setSt
      apply dmacWidthInv_setReg s _ _ h
      apply regsWidthInv_update_irq
      refine regsWidthInv_setCh _ _ _ (fun j hj => h d j hj) ?_
      exact chWidthInv_trigger _ _ _ (h d i hi)
    · apply dmacWidthInv_setSt
      apply dmacWidthInv_setReg s _ _ h
      refine regsWidthInv_setCh _ _ _ (fun j hj => h d j hj) ?_
      exact chWidthInv_trigger _ _ _ (h d i hi)
  · exact h

/-- C9: in every reachable DMAC state (after reset and after any sequence of
    guest register writes, descriptor loads from guest memory and channel
    transfers), every channel's DTC has bits 31:24 zero, its DRT has bits
    31:6 zero, and its DDA has its low 4 bits zero. -/
theorem dmac_reachable_width_invariant (s : DmacState) (h : DmacReachable s) :
    DmacWidthInv s := by
  induction h with
  | reset =>
    intro d i hi
    refine ⟨?_, ?_, ?_⟩ <;> simp [ingenic_dmac_reset]
  | write s addr data h ih => exact dmacWidthInv_write s addr data ih
  | descStep s d i mem mscPresent mscAvail hi h ih =>
    exact dmacWidthInv_desc_step s d i mem mscPresent mscAvail hi ih
  | txfrStep s d i mscAvail bchErr hi h ih =>
    exact dmacWidthInv_txfr_step s d i mscAvail bchErr hi ih

/-- Witness for C9: the invariant holds at a concrete reachable state (a DTC
    write of an over-wide value after reset). -/
theorem dmac_reachable_width_invariant_witness :
    DmacWidthInv (ingenic_dmac_write ingenic_dmac_reset 0x08 0xffffffff).1 :=
  dmac_reachable_width_invariant _
    (DmacReachable.write _ 0x08 0xffffffff DmacReachable.reset)

/- ===================================================================== -/
/- Claim C1: DMAC descriptor-chain walking                                 -/
/- ===================================================================== -/

theorem BIT_eq_two_pow (k : Nat) : BIT k = 2 ^ k := by
  rw [BIT, Nat.shiftLeft_eq, Nat.one_mul]

theorem and_BIT_eq_zero_iff (x k : Nat) : x &&& BIT k = 0 ↔ x.testBit k = false := by
  rw [BIT_eq_two_pow, Nat.and_two_pow]
  cases h : x.testBit k <;> simp [h]

theorem shift_and1_eq_zero_iff (x k : Nat) : (x >>> k) &&& 1 = 0 ↔ x.testBit k = false := by
  rw [show (1 : Nat) = 2 ^ 1 - 1 by norm_num, Nat.and_pow_two_sub_one_eq_mod,
    Nat.shiftRight_eq_div_pow, Nat.testBit_to_div_mod]
  have h := Nat.mod_two_eq_zero_or_one (x / 2 ^ k)
  rcases h with h | h <;> simp [h]

theorem shift_and1_eq_one_iff (x k : Nat) : (x >>> k) &&& 1 = 1 ↔ x.testBit k = true := by
  rw [show (1 : Nat) = 2 ^ 1 - 1 by norm_num, Nat.and_pow_two_sub_one_eq_mod,
    Nat.shiftRight_eq_div_pow, Nat.testBit_to_div_mod]
  simp

theorem testBit_or_BIT_ne (x k n : Nat) (h : n ≠ k) :
    (x ||| BIT k).testBit n = x.testBit n := by
  rw [BIT_eq_two_pow, Nat.testBit_or, Nat.testBit_two_pow]
  have hk : ¬ (k = n) := fun hh => h hh.symm
  simp [hk]

theorem testBit_and_compl32_BIT_ne (x k n : Nat) (h : n ≠ k) :
    (x &&& compl32 (BIT k)).testBit n = (x.testBit n && decide (n < 32)) := by
  rw [compl32, BIT_eq_two_pow, Nat.testBit_and, Nat.testBit_xor, tb_mask32,
    Nat.testBit_two_pow]
  have hk : ¬ (k = n) := fun hh => h hh.symm
  rcases lt_or_ge n 32 with hn | hn <;> simp [hk, hn]

theorem desc_words_lt (mem : Nat → Nat) (addr nwords : Nat) (i : Fin 8) :
    desc_words mem addr nwords i < 2 ^ 32 := by
  unfold desc_words
  split
  · exact Nat.mod_lt _ (by norm_num)
  · norm_num

theorem dmac_fetch_parse (rr : ChRegs) (mem : Nat → Nat)
    (h31 : rr.dcs.testBit 31 = false) : DmacFetchSpec rr mem := by
  have hz : rr.dcs &&& BIT 31 = 0 := (and_BIT_eq_zero_iff _ _).mpr h31
  have hdoa : ∀ n, desc_words mem rr.dda n 3 >>> 24 < 2 ^ 8 := by
    intro n
    have := desc_words_lt mem rr.dda n 3
    rw [Nat.shiftRight_eq_div_pow]
    omega
  unfold DmacFetchSpec ingenic_dmac_desc_fetch ingenic_dmac_parse_descriptor
  dsimp only
  rw [if_pos hz]
  by_cases h30 : rr.dcs &&& BIT 30 = 0
  · have hn4 : (if rr.dcs &&& BIT 30 ≠ 0 then (8 : Nat) else 4) = 4 :=
      if_neg (fun hc => hc h30)
    rw [hn4, if_neg (show ¬ ((4 : Nat) ≥ 8) by norm_num)]
    refine ⟨rfl, rfl, rfl, and_0xffffff_eq_mod _, dda_parse_low _ _,
      dda_parse_mid _ _ (hdoa 4), ?_, ?_, ?_⟩
    · intro hlt
      exact dda_parse_high _ _ hlt (hdoa 4)
    · intro hn
      norm_num at hn
    · intro _
      exact ⟨rfl, rfl⟩
  · have hn8 : (if rr.dcs &&& BIT 30 ≠ 0 then (8 : Nat) else 4) = 8 := if_pos h30
    rw [hn8, if_pos (show (8 : Nat) ≥ 8 by norm_num)]
    refine ⟨rfl, rfl, rfl, and_0xffffff_eq_mod _, dda_parse_low _ _,
      dda_parse_mid _ _ (hdoa 8), ?_, ?_, ?_⟩
    · intro hlt
      exact dda_parse_high _ _ hlt (hdoa 8)
    · intro _
      exact ⟨rfl, and_0x3f_eq_mod _⟩
    · intro hn
      norm_num at hn

theorem testBit_or_BIT_self (x k : Nat) : (x ||| BIT k).testBit k = true := by
  rw [BIT_eq_two_pow, Nat.testBit_or, Nat.testBit_two_pow]
  simp

theorem and1_cases (x : Nat) : x &&& 1 = 0 ∨ x &&& 1 = 1 := by
  rw [show (1 : Nat) = 2 ^ 1 - 1 by norm_num, Nat.and_pow_two_sub_one_eq_mod]
  omega

/-- C1: when a DMA channel completes a transfer (remaining size reaches 0),
    the CT/TT status bits are set according to LINK, the channel walks to the
    next descriptor exactly when LINK is set and NDES clear (returning to
    idle otherwise), and the fetch loads DCM/DSA/DTA/DTC/DDA (and DSD/DRT
    for 8-word descriptors) from the descriptor words at the address in DDA. -/
theorem dmac_descriptor_chain (r : ChRegs) (mscAvail : Nat) (bchErr : Bool)
    (mem : Nat → Nat)
    (hinv : (r.dcm >>> 6) &&& 1 = 0)
    (hstde : (r.dcm >>> 5) &&& 1 = 0)
    (hsp : sdp_map ((r.dcm >>> 14) &&& 3) ≠ 0)
    (hdp : sdp_map ((r.dcm >>> 12) &&& 3) ≠ 0)
    (htsz : tsz_map ((r.dcm >>> 8) &&& 7) ≠ 0)
    (havail : req_avail r.drt (r.dtc * tsz_map ((r.dcm >>> 8) &&& 7)) mscAvail =
      some (r.dtc * tsz_map ((r.dcm >>> 8) &&& 7))) :
    DmacChainSpec r mscAvail bchErr mem := by
  unfold DmacChainSpec ingenic_dmac_channel_trigger
  dsimp only
  rw [if_neg (by omega), if_neg (by omega),
    if_neg (show ¬ (sdp_map ((r.dcm >>> 14) &&& 3) = 0 ∨ sdp_map ((r.dcm >>> 12) &&& 3) = 0 ∨
      tsz_map ((r.dcm >>> 8) &&& 7) = 0) by tauto), havail]
  dsimp only
  rw [Nat.sub_self]
  rw [if_neg (show ¬ ((0 : Nat) ≠ 0) by norm_num)]
  refine ⟨?_, ?_, ?_, ?_, ?_, ?_⟩
  · intro hlink
    rw [if_pos hlink]
    exact testBit_or_BIT_self _ 1
  · intro hlink
    rw [if_neg (by omega)]
    exact testBit_or_BIT_self _ 3
  · rcases and1_cases r.dcm with hl | hl <;>
      rcases and1_cases (r.dcs >>> 31) with hn | hn <;>
      simp [hl, hn]
  · repeat' split
    all_goals rfl
  · rfl
  · intro hndes hlink
    apply dmac_fetch_parse
    rw [if_pos hlink]
    have hbase : r.dcs.testBit 31 = false := (shift_and1_eq_zero_iff _ _).mp hndes
    rw [testBit_or_BIT_ne _ 1 31 (by norm_num)]
    repeat' split
    all_goals dsimp only
    all_goals first
      | (rw [testBit_or_BIT_ne _ 7 31 (by norm_num)]; exact hbase)
      | (rw [testBit_and_compl32_BIT_ne _ 7 31 (by norm_num), hbase]; rfl)
      | exact hbase

/-- Witness for C1: an AUTO-request channel with LINK set, NDES clear and an
    8-word descriptor fetch, on a concrete memory oracle. -/
theorem dmac_descriptor_chain_witness :
    (((⟨0, 0, 2, 8, 0x40000000, 1, 0x100, 0⟩ : ChRegs).dcm >>> 6) &&& 1 = 0) ∧
    (((⟨0, 0, 2, 8, 0x40000000, 1, 0x100, 0⟩ : ChRegs).dcm >>> 5) &&& 1 = 0) ∧
    sdp_map (((⟨0, 0, 2, 8, 0x40000000, 1, 0x100, 0⟩ : ChRegs).dcm >>> 14) &&& 3) ≠ 0 ∧
    sdp_map (((⟨0, 0, 2, 8, 0x40000000, 1, 0x100, 0⟩ : ChRegs).dcm >>> 12) &&& 3) ≠ 0 ∧
    tsz_map (((⟨0, 0, 2, 8, 0x40000000, 1, 0x100, 0⟩ : ChRegs).dcm >>> 8) &&& 7) ≠ 0 ∧
    req_avail (⟨0, 0, 2, 8, 0x40000000, 1, 0x100, 0⟩ : ChRegs).drt
      ((⟨0, 0, 2, 8, 0x40000000, 1, 0x100, 0⟩ : ChRegs).dtc *
        tsz_map (((⟨0, 0, 2, 8, 0x40000000, 1, 0x100, 0⟩ : ChRegs).dcm >>> 8) &&& 7)) 0 =
      some ((⟨0, 0, 2, 8, 0x40000000, 1, 0x100, 0⟩ : ChRegs).dtc *
        tsz_map (((⟨0, 0, 2, 8, 0x40000000, 1, 0x100, 0⟩ : ChRegs).dcm >>> 8) &&& 7)) ∧
    DmacChainSpec ⟨0, 0, 2, 8, 0x40000000, 1, 0x100, 0⟩ 0 false (fun a => a + 7) :=
  ⟨by decide, by decide, by decide, by decide, by decide, by decide,
   dmac_descriptor_chain ⟨0, 0, 2, 8, 0x40000000, 1, 0x100, 0⟩ 0 false (fun a => a + 7)
     (by decide) (by decide) (by decide) (by decide) (by decide) (by decide)⟩

/- ===================================================================== -/
/- Claim C4: unimplemented-path handling                                   -/
/- ===================================================================== -/

theorem setTimer_self (s : TcuState) (i : Fin 6) : setTimer s i (s.timer i) = s := by
  show ({ s with timer := fun j => if j = i then s.timer i else s.timer j } : TcuState) = s
  have h : (fun j => if j = i then s.timer i else s.timer j) = s.timer := by
    funext j
    split
    · next hj => rw [hj]
    · rfl
  rw [h]

/-- tmr_update_cnt only ever touches tfr, irqState and the output lines of
    the global TCU state. -/
theorem tmr_update_cnt_frame (delta : Nat) (t : TmrState) (s : TcuState) :
    (tmr_update_cnt delta t s).2.tsr = s.tsr ∧
    (tmr_update_cnt delta t s).2.ter = s.ter ∧
    (tmr_update_cnt delta t s).2.tmr = s.tmr ∧
    (tmr_update_cnt delta t s).2.tstr = s.tstr ∧
    (tmr_update_cnt delta t s).2.ost = s.ost ∧
    (tmr_update_cnt delta t s).2.timer = s.timer ∧
    (tmr_update_cnt delta t s).2.model = s.model := by
  unfold tmr_update_cnt update_irq
  dsimp only
  repeat' split
  all_goals exact ⟨rfl, rfl, rfl, rfl, rfl, rfl, rfl⟩

theorem dmac_read_undecoded (s : DmacState) (addr : Nat) (h : ¬ dmac_read_decoded addr) :
    ingenic_dmac_read s addr = (s, 0, true) := by
  unfold ingenic_dmac_read
  dsimp only
  split
  · next h2ff =>
    split
    · rfl
    · next hch =>
      have hch6 : (addr % 0x100) / 0x20 < 6 := by omega
      split
      · next hc0 =>
        exfalso
        rw [and_0xff_eq_mod] at hc0
        omega
      · have hoff : ¬ (addr &&& 0x1f = 0x00 ∨ addr &&& 0x1f = 0x04 ∨
            addr &&& 0x1f = 0x08 ∨ addr &&& 0x1f = 0x0c ∨ addr &&& 0x1f = 0x10 ∨
            addr &&& 0x1f = 0x14 ∨ addr &&& 0x1f = 0x18) :=
          fun hh => h (Or.inl ⟨h2ff, hch6, hh⟩)
        split <;> first | rfl | (exfalso; apply hoff; tauto)
  · next h2ff =>
    split
    · next h4ff =>
      have h300 : 0x300 ≤ addr := by omega
      have h4ffb : addr ≤ 0x4ff := by omega
      have hoff : ¬ (addr &&& 0xff = 0x00 ∨ addr &&& 0xff = 0x04 ∨
          addr &&& 0xff = 0x08 ∨ addr &&& 0xff = 0x10) :=
        fun hh => h (Or.inr ⟨h300, h4ffb, hh⟩)
      split <;> first | rfl | (exfalso; apply hoff; tauto)
    · rfl

theorem dmac_write_undecoded (s : DmacState) (addr data : Nat)
    (h : ¬ dmac_write_decoded addr) : ingenic_dmac_write s addr data = (s, true) := by
  unfold ingenic_dmac_write
  dsimp only
  split
  · next h2ff =>
    split
    · rfl
    · next hch =>
      have hch6 : (addr % 0x100) / 0x20 < 6 := by omega
      split
      · next hc0 =>
        exfalso
        rw [and_0xff_eq_mod] at hc0
        omega
      · have hoff : ¬ (addr &&& 0x1f = 0x00 ∨ addr &&& 0x1f = 0x04 ∨
            addr &&& 0x1f = 0x08 ∨ addr &&& 0x1f = 0x0c ∨ addr &&& 0x1f = 0x10 ∨
            addr &&& 0x1f = 0x14 ∨ addr &&& 0x1f = 0x18) :=
          fun hh => h (Or.inl ⟨h2ff, hch6, hh⟩)
        split <;> first | rfl | (exfalso; apply hoff; tauto)
  · next h2ff =>
    split
    · next h4ff =>
      have h300 : 0x300 ≤ addr := by omega
      have h4ffb : addr ≤ 0x4ff := by omega
      have hoff : ¬ (addr &&& 0xff = 0x00 ∨ addr &&& 0xff = 0x04 ∨
          addr &&& 0xff = 0x0c ∨ addr &&& 0xff = 0x10) :=
        fun hh => h (Or.inr ⟨h300, h4ffb, hh⟩)
      split <;> first | rfl | (exfalso; apply hoff; tauto)
    · rfl

set_option maxHeartbeats 1000000 in
theorem tcu_read_undecoded (delta : Nat) (s : TcuState) (addr : Nat)
    (h : ¬ tcu_read_decoded addr) : ingenic_tcu_read delta s addr = (s, 0, true) := by
  unfold ingenic_tcu_read ingenic_tcu_timer_read
  dsimp only
  split
  · next hr =>
    have hoff : ¬ (addr &&& 0x0f = 0x00 ∨ addr &&& 0x0f = 0x04 ∨
        addr &&& 0x0f = 0x08 ∨ addr &&& 0x0f = 0x0c) :=
      fun hh => h (Or.inl ⟨hr.1, hr.2, hh⟩)
    split <;> first | (exfalso; apply hoff; tauto) | rfl
  · have hoff : ¬ (addr = 0x10 ∨ addr = 0x14 ∨ addr = 0x18 ∨ addr = 0x1c ∨
        addr = 0x20 ∨ addr = 0x30 ∨ addr = 0xe0 ∨ addr = 0xe8 ∨ addr = 0xec ∨
        addr = 0xf0) := fun hh => h (Or.inr hh)
    split <;> first | (exfalso; apply hoff; tauto) | rfl

set_option maxHeartbeats 1000000 in
theorem tcu_write_undecoded_global (delta : Nat) (now : Int) (np : Nat) (s : TcuState)
    (addr data : Nat) (hr : ¬ (0x40 ≤ addr ∧ addr < 0xa0))
    (h : ¬ tcu_write_decoded_global addr) :
    ingenic_tcu_write delta now np s addr data = (s, true) := by
  have hoff : ¬ (addr = 0x14 ∨ addr = 0x18 ∨ addr = 0x24 ∨ addr = 0x28 ∨
      addr = 0x2c ∨ addr = 0x3c ∨ addr = 0x34 ∨ addr = 0x38 ∨ addr = 0xe0 ∨
      addr = 0xe8 ∨ addr = 0xec ∨ addr = 0xf4 ∨ addr = 0xf8) := fun hh => h hh
  unfold ingenic_tcu_write
  rw [dif_neg hr]
  unfold ingenic_tcu_write_global
  split <;> first | (exfalso; apply hoff; tauto) | rfl

set_option maxHeartbeats 1000000 in
theorem tcu_write_undecoded_timer (delta : Nat) (now : Int) (np : Nat) (s : TcuState)
    (addr data : Nat) (hlt : (addr - 0x40) / 0x10 < 6)
    (h1 : 0x40 ≤ addr) (h2 : addr < 0xa0)
    (hoff : ¬ (addr &&& 0x0f = 0x00 ∨ addr &&& 0x0f = 0x04 ∨ addr &&& 0x0f = 0x08 ∨
      addr &&& 0x0f = 0x0c)) :
    ingenic_tcu_write delta now np s addr data =
      (setTimer (tmr_update_cnt delta (s.timer ⟨(addr - 0x40) / 0x10, hlt⟩).tmr s).2
        ⟨(addr - 0x40) / 0x10, hlt⟩
        { (tmr_update_cnt delta (s.timer ⟨(addr - 0x40) / 0x10, hlt⟩).tmr s).2.timer
            ⟨(addr - 0x40) / 0x10, hlt⟩ with
          tmr := (tmr_update_cnt delta (s.timer ⟨(addr - 0x40) / 0x10, hlt⟩).tmr s).1 },
       true) := by
  unfold ingenic_tcu_write ingenic_tcu_timer_write
  dsimp only
  split
  · split <;> first
      | (exfalso; apply hoff; tauto)
      | (rw [setTimer_self]; try rfl)
  · next hh => exact absurd ⟨h1, h2⟩ hh

/-- C4 (amended): a guest access at an undecoded register offset logs and
    stops the VM via qmp_stop; an undecoded read returns 0 and leaves the
    device state unchanged, and an undecoded write leaves the state unchanged
    as well, except that an undecoded write inside the TCU per-timer region
    (0x40..0x9f) still runs the timer's tmr_update_cnt after stopping, which
    can advance TCNT and latch TFR match flags. -/
theorem undecoded_access_behavior :
    (∀ (s : DmacState) (addr : Nat), ¬ dmac_read_decoded addr →
      ingenic_dmac_read s addr = (s, 0, true)) ∧
    (∀ (s : DmacState) (addr data : Nat), ¬ dmac_write_decoded addr →
      ingenic_dmac_write s addr data = (s, true)) ∧
    (∀ (delta : Nat) (s : TcuState) (addr : Nat), ¬ tcu_read_decoded addr →
      ingenic_tcu_read delta s addr = (s, 0, true)) ∧
    (∀ (delta : Nat) (now : Int) (np : Nat) (s : TcuState) (addr data : Nat),
      ¬ (0x40 ≤ addr ∧ addr < 0xa0) → ¬ tcu_write_decoded_global addr →
      ingenic_tcu_write delta now np s addr data = (s, true)) ∧
    (∀ (delta : Nat) (now : Int) (np : Nat) (s : TcuState) (addr data : Nat)
      (hlt : (addr - 0x40) / 0x10 < 6), 0x40 ≤ addr → addr < 0xa0 →
      ¬ (addr &&& 0x0f = 0x00 ∨ addr &&& 0x0f = 0x04 ∨ addr &&& 0x0f = 0x08 ∨
         addr &&& 0x0f = 0x0c) →
      ingenic_tcu_write delta now np s addr data =
        (setTimer (tmr_update_cnt delta (s.timer ⟨(addr - 0x40) / 0x10, hlt⟩).tmr s).2
          ⟨(addr - 0x40) / 0x10, hlt⟩
          { (tmr_update_cnt delta (s.timer ⟨(addr - 0x40) / 0x10, hlt⟩).tmr s).2.timer
              ⟨(addr - 0x40) / 0x10, hlt⟩ with
            tmr := (tmr_update_cnt delta (s.timer ⟨(addr - 0x40) / 0x10, hlt⟩).tmr s).1 },
         true)) :=
  ⟨dmac_read_undecoded, dmac_write_undecoded, tcu_read_undecoded,
   tcu_write_undecoded_global,
   fun delta now np s addr data hlt h1 h2 hoff =>
     tcu_write_undecoded_timer delta now np s addr data hlt h1 h2 hoff⟩

/-- Witness for C4 at concrete undecoded offsets. -/
theorem undecoded_access_behavior_witness :
    (¬ dmac_read_decoded 0x500) ∧
    ingenic_dmac_read ingenic_dmac_reset 0x500 = (ingenic_dmac_reset, 0, true) :=
  ⟨by unfold dmac_read_decoded; decide,
   undecoded_access_behavior.1 ingenic_dmac_reset 0x500
     (by unfold dmac_read_decoded; decide)⟩

/-- Counterexample for C4 as stated: the undecoded TCU write at offset 0x62
    (per-timer region, unaligned sub-offset) stops the VM but still mutates
    the register state: with timer 2 disabled at cnt = comp = 0, the write
    latches the half-match flag into TFR (0 becomes 0x40000). -/
theorem tcu_undecoded_write_mutates :
    ¬ ((0x62 : Nat) &&& 0x0f = 0x00 ∨ (0x62 : Nat) &&& 0x0f = 0x04 ∨
       (0x62 : Nat) &&& 0x0f = 0x08 ∨ (0x62 : Nat) &&& 0x0f = 0x0c) ∧
    (ingenic_tcu_write 0 0 0
      ⟨0, 0, 0, 0, 0, fun _ => ⟨⟨0, 0, 0, 1, 0, 0, 4, 0x40000, false, false, 0⟩, 0⟩,
       ⟨⟨0, 0, 0, 1, 0, 0, 4, 0x40000, false, false, 0⟩, 0⟩, 0, fun _ => false, 0x4755⟩
      0x62 0).2 = true ∧
    (ingenic_tcu_write 0 0 0
      ⟨0, 0, 0, 0, 0, fun _ => ⟨⟨0, 0, 0, 1, 0, 0, 4, 0x40000, false, false, 0⟩, 0⟩,
       ⟨⟨0, 0, 0, 1, 0, 0, 4, 0x40000, false, false, 0⟩, 0⟩, 0, fun _ => false, 0x4755⟩
      0x62 0).1.tfr = 0x40000 :=
  ⟨by decide, by decide, by decide⟩

/- ===================================================================== -/
/- Claim C10: a timer with FULL = 0 is never armed                         -/
/- ===================================================================== -/

theorem tmr_update_cnt_armed (delta : Nat) (t : TmrState) (s : TcuState) :
    (tmr_update_cnt delta t s).1.armed = t.armed := rfl

theorem tmr_update_cnt_top (delta : Nat) (t : TmrState) (s : TcuState) :
    (tmr_update_cnt delta t s).1.top = t.top := rfl

theorem tmr_update_cnt_enabled (delta : Nat) (t : TmrState) (s : TcuState) :
    (tmr_update_cnt delta t s).1.enabled = t.enabled := rfl

theorem tmr_schedule_top_zero (delta : Nat) (t : TmrState) (s : TcuState)
    (h : t.top = 0) :
    (tmr_schedule delta t s).1.armed = false ∧
    (tmr_schedule delta t s).1.enabled = false := by
  unfold tmr_schedule tmr_enable_off
  rw [if_pos h]
  exact ⟨rfl, rfl⟩

/-- C10: a TCU timer whose FULL (top) value is 0 is never armed: every entry
    point into scheduling (tmr_schedule itself, enabling the timer through
    tmr_enable, and the host-timer callback tmr_cb) leaves the host QEMUTimer
    deleted (armed = false) instead of computing a next event, so no
    host-timer callback is ever scheduled while FULL remains 0. -/
theorem tcu_timer_full_zero_never_armed :
    (∀ (delta : Nat) (t : TmrState) (s : TcuState), t.top = 0 →
      (tmr_schedule delta t s).1.armed = false ∧
      (tmr_schedule delta t s).1.enabled = false) ∧
    (∀ (en : Bool) (delta : Nat) (now : Int) (t : TmrState) (s : TcuState),
      t.top = 0 → (tmr_enable en delta now t s).1.armed = false) ∧
    (∀ (delta : Nat) (t : TmrState) (s : TcuState), t.top = 0 →
      (tmr_cb delta t s).1.armed = false) := by
  refine ⟨tmr_schedule_top_zero, ?_, ?_⟩
  · intro en delta now t s h
    cases en with
    | false =>
      show (tmr_enable_off delta t s).1.armed = false
      rfl
    | true =>
      show ({ (tmr_update_cnt delta (tmr_schedule delta
          { t with qtsStartNs := now, clkTicks := 0 } s).1
          (tmr_schedule delta { t with qtsStartNs := now, clkTicks := 0 } s).2).1
          with enabled := true } : TmrState).armed = false
      rw [show ({ (tmr_update_cnt delta (tmr_schedule delta
          { t with qtsStartNs := now, clkTicks := 0 } s).1
          (tmr_schedule delta { t with qtsStartNs := now, clkTicks := 0 } s).2).1
          with enabled := true } : TmrState).armed =
        (tmr_schedule delta { t with qtsStartNs := now, clkTicks := 0 } s).1.armed
        from rfl]
      exact (tmr_schedule_top_zero delta
        { t with qtsStartNs := now, clkTicks := 0 } s h).1
  · intro delta t s h
    unfold tmr_cb
    exact (tmr_schedule_top_zero delta _ _ (by rw [tmr_update_cnt_top]; exact h)).1

/-- Witness for C10 at a concrete timer state with FULL = 0. -/
theorem tcu_timer_full_zero_never_armed_witness :
    (⟨0, 0, 0, 0, 0, 0, 1, 0x10000, true, true, 0⟩ : TmrState).top = 0 ∧
    (tmr_schedule 5 ⟨0, 0, 0, 0, 0, 0, 1, 0x10000, true, true, 0⟩
      ⟨0, 0, 0, 0, 0, fun _ => ⟨⟨0, 0, 0, 0, 0, 0, 1, 0x10000, true, true, 0⟩, 0⟩,
       ⟨⟨0, 0, 0, 0, 0, 0, 1, 0x10000, true, true, 0⟩, 0⟩, 0, fun _ => false, 0x4755⟩).1.armed
      = false ∧
    (tmr_schedule 5 ⟨0, 0, 0, 0, 0, 0, 1, 0x10000, true, true, 0⟩
      ⟨0, 0, 0, 0, 0, fun _ => ⟨⟨0, 0, 0, 0, 0, 0, 1, 0x10000, true, true, 0⟩, 0⟩,
       ⟨⟨0, 0, 0, 0, 0, 0, 1, 0x10000, true, true, 0⟩, 0⟩, 0, fun _ => false, 0x4755⟩).1.enabled
      = false :=
  ⟨by decide,
   (tcu_timer_full_zero_never_armed.1 5 _ _ (by decide)).1,
   (tcu_timer_full_zero_never_armed.1 5 _ _ (by decide)).2⟩

/- ===================================================================== -/
/- Claim C2: TCU period/half-match arithmetic                              -/
/- ===================================================================== -/

/-- The counting loop advances the counter by one per tick (wrapping after
    FULL) and collects the HALF/FULL match masks of exactly the visited
    counter values. -/
theorem tmr_count_loop_spec (top comp tm cm : Nat) : ∀ (d c : Nat),
    tmr_count_loop top comp tm cm c d =
      ((tmr_step top)^[d] c,
       (if ∃ i, i ≤ d ∧ (tmr_step top)^[i] c = comp then cm else 0) |||
       (if ∃ i, i ≤ d ∧ (tmr_step top)^[i] c = top then tm else 0)) := by
  intro d
  induction d with
  | zero =>
    intro c
    have e1 : ∀ x : Nat, (∃ i, i ≤ 0 ∧ (tmr_step top)^[i] c = x) ↔ x = c := by
      intro x
      constructor
      · rintro ⟨i, hi, he⟩
        have hz : i = 0 := Nat.le_zero.mp hi
        subst hz
        simpa using he.symm
      · intro h
        exact ⟨0, Nat.le_refl 0, by simpa using h.symm⟩
    unfold tmr_count_loop tmr_hit_mask
    simp only [Function.iterate_zero, id_eq, e1]
  | succ d ih =>
    intro c
    have hstep : ∀ x : Nat, (∃ i, i ≤ d + 1 ∧ (tmr_step top)^[i] c = x) ↔
        (x = c ∨ ∃ i, i ≤ d ∧ (tmr_step top)^[i] (tmr_step top c) = x) := by
      intro x
      constructor
      · rintro ⟨i, hi, he⟩
        cases i with
        | zero =>
          left
          simpa using he.symm
        | succ j =>
          right
          exact ⟨j, by omega, by rwa [Function.iterate_succ_apply] at he⟩
      · rintro (h | ⟨i, hi, he⟩)
        · exact ⟨0, by omega, by simpa using h.symm⟩
        · exact ⟨i + 1, by omega, by rwa [Function.iterate_succ_apply]⟩
    show (let r := tmr_count_loop top comp tm cm (tmr_step top c) d
      ((r.1 : Nat), tmr_hit_mask top comp tm cm c ||| r.2)) = _
    rw [ih (tmr_step top c)]
    simp only [hstep, Function.iterate_succ_apply, tmr_hit_mask]
    refine congrArg _ ?_
    by_cases hc : comp = c <;> by_cases ht : top = c <;>
      by_cases hp : (∃ i, i ≤ d ∧ (tmr_step top)^[i] (tmr_step top c) = comp) <;>
      by_cases hq : (∃ i, i ≤ d ∧ (tmr_step top)^[i] (tmr_step top c) = top)
    all_goals try simp only [hp, hq]
    all_goals try simp [hc, ht]
    all_goals try (
      apply Nat.eq_of_testBit_eq
      intro i
      simp only [Nat.testBit_or]
      cases cm.testBit i <;> cases tm.testBit i <;> simp)

/-- update_irq drives the three output lines from TFR & ~TMR, provided the
    cached lines agreed with the cached irqState beforehand (0x4755 model). -/
theorem update_irq_spec (s : TcuState) (hmodel : s.model = 0x4755)
    (hl0 : s.lines 0 = decide (s.irqState &&& 0x00008000 ≠ 0))
    (hl1 : s.lines 1 = decide (s.irqState &&& 0x00200020 ≠ 0))
    (hl2 : s.lines 2 = decide (s.irqState &&& 0x001f001f ≠ 0)) :
    (update_irq s).tfr = s.tfr ∧ (update_irq s).tmr = s.tmr ∧
    (update_irq s).irqState = s.tfr &&& compl32 s.tmr ∧
    (update_irq s).lines 0 = decide ((s.tfr &&& compl32 s.tmr) &&& 0x00008000 ≠ 0) ∧
    (update_irq s).lines 1 = decide ((s.tfr &&& compl32 s.tmr) &&& 0x00200020 ≠ 0) ∧
    (update_irq s).lines 2 = decide ((s.tfr &&& compl32 s.tmr) &&& 0x001f001f ≠ 0) := by
  unfold update_irq
  dsimp only
  split
  · next heq =>
    refine ⟨rfl, rfl, heq.symm, ?_, ?_, ?_⟩
    · rw [hl0, heq]
    · rw [hl1, heq]
    · rw [hl2, heq]
  · refine ⟨rfl, rfl, rfl, ?_, ?_, ?_⟩ <;> simp [hmodel]

theorem update_irq_tfr (s : TcuState) : (update_irq s).tfr = s.tfr := by
  unfold update_irq
  dsimp only
  repeat' split
  all_goals rfl

theorem update_irq_tmr (s : TcuState) : (update_irq s).tmr = s.tmr := by
  unfold update_irq
  dsimp only
  repeat' split
  all_goals rfl

/-- C2 (amended): for an enabled TCU timer, tmr_update_cnt advances the
    counter by exactly one per elapsed source-clock tick (wrapping to 0 on
    the tick after the counter equals FULL), latches the timer's half-match
    mask into TFR exactly when some visited counter value equals HALF and
    the full-match mask exactly when one equals FULL, and on every
    update_irq invocation (match events here, and TFR flag set/clear writes
    TFSR/TFCR below) each output line of the 0x4755 model is driven exactly
    by its group of bits in TFR & ~TMR (OST bit 15 on line 0, timer-5 bits
    0x00200020 on line 1, timer 0-4 bits 0x001f001f on line 2).  TMR
    mask-register writes do not run update_irq (see the counterexample). -/
theorem tcu_timer_match_spec (delta : Nat) (t : TmrState) (s : TcuState)
    (hen : t.enabled = true)
    (hmodel : s.model = 0x4755)
    (hstate : s.irqState = s.tfr &&& compl32 s.tmr)
    (hl0 : s.lines 0 = decide (s.irqState &&& 0x00008000 ≠ 0))
    (hl1 : s.lines 1 = decide (s.irqState &&& 0x00200020 ≠ 0))
    (hl2 : s.lines 2 = decide (s.irqState &&& 0x001f001f ≠ 0)) :
    (tmr_update_cnt delta t s).1.cnt = (tmr_step t.top)^[delta] t.cnt ∧
    tmr_step t.top t.top = 0 ∧
    (∀ c, t.top ≠ c → tmr_step t.top c = (c + 1) % 2 ^ 32) ∧
    (tmr_update_cnt delta t s).2.tfr = s.tfr |||
      ((if ∃ i, i ≤ delta ∧ (tmr_step t.top)^[i] t.cnt = t.comp then t.irqCompMask else 0) |||
       (if ∃ i, i ≤ delta ∧ (tmr_step t.top)^[i] t.cnt = t.top then t.irqTopMask else 0)) ∧
    ((tmr_update_cnt delta t s).2.lines 0 = decide
      (((tmr_update_cnt delta t s).2.tfr &&& compl32 (tmr_update_cnt delta t s).2.tmr) &&&
        0x00008000 ≠ 0)) ∧
    ((tmr_update_cnt delta t s).2.lines 1 = decide
      (((tmr_update_cnt delta t s).2.tfr &&& compl32 (tmr_update_cnt delta t s).2.tmr) &&&
        0x00200020 ≠ 0)) ∧
    ((tmr_update_cnt delta t s).2.lines 2 = decide
      (((tmr_update_cnt delta t s).2.tfr &&& compl32 (tmr_update_cnt delta t s).2.tmr) &&&
        0x001f001f ≠ 0)) ∧
    (∀ (now : Int) (np data : Nat),
      (ingenic_tcu_write delta now np s 0x24 data).1.tfr =
        s.tfr ||| (data &&& 0x003f803f) ∧
      (ingenic_tcu_write delta now np s 0x24 data).1.lines 2 = decide
        ((((s.tfr ||| (data &&& 0x003f803f)) &&& compl32 s.tmr) &&& 0x001f001f) ≠ 0)) ∧
    (∀ (now : Int) (np data : Nat),
      (ingenic_tcu_write delta now np s 0x28 data).1.tfr =
        s.tfr &&& (compl64 data &&& 0x003f803f) ∧
      (ingenic_tcu_write delta now np s 0x28 data).1.lines 2 = decide
        ((((s.tfr &&& (compl64 data &&& 0x003f803f)) &&& compl32 s.tmr) &&& 0x001f001f) ≠ 0)) := by
  have hd : (if t.enabled = true then delta else 0) = delta := by simp [hen]
  have hloop := tmr_count_loop_spec t.top t.comp t.irqTopMask t.irqCompMask delta t.cnt
  have hw24 : ∀ (now : Int) (np data : Nat),
      (ingenic_tcu_write delta now np s 0x24 data).1 =
        update_irq { s with tfr := s.tfr ||| (data &&& 0x003f803f) } := fun _ _ _ => rfl
  have hw28 : ∀ (now : Int) (np data : Nat),
      (ingenic_tcu_write delta now np s 0x28 data).1 =
        update_irq { s with tfr := s.tfr &&& (compl64 data &&& 0x003f803f) } := fun _ _ _ => rfl
  simp only [tmr_update_cnt, hd, hloop]
  set M : Nat :=
    (if ∃ i, i ≤ delta ∧ (tmr_step t.top)^[i] t.cnt = t.comp then t.irqCompMask else 0) |||
    (if ∃ i, i ≤ delta ∧ (tmr_step t.top)^[i] t.cnt = t.top then t.irqTopMask else 0) with hM
  refine ⟨trivial, ?_, ?_, ?_, ?_, ?_, ?_, ?_, ?_⟩
  · unfold tmr_step
    rw [if_pos rfl]
  · intro c hc
    unfold tmr_step
    rw [if_neg hc]
  · split
    · rw [update_irq_tfr]
    · next hmz =>
      rw [not_not.mp hmz, Nat.or_zero]
  · split
    · rw [update_irq_tfr, update_irq_tmr]
      exact (update_irq_spec { s with tfr := s.tfr ||| M } hmodel hl0 hl1 hl2).2.2.2.1
    · rw [hl0, hstate]
  · split
    · rw [update_irq_tfr, update_irq_tmr]
      exact (update_irq_spec { s with tfr := s.tfr ||| M } hmodel hl0 hl1 hl2).2.2.2.2.1
    · rw [hl1, hstate]
  · split
    · rw [update_irq_tfr, update_irq_tmr]
      exact (update_irq_spec { s with tfr := s.tfr ||| M } hmodel hl0 hl1 hl2).2.2.2.2.2
    · rw [hl2, hstate]
  · intro now np data
    rw [hw24 now np data]
    exact ⟨update_irq_tfr _,
      (update_irq_spec { s with tfr := s.tfr ||| (data &&& 0x003f803f) }
        hmodel hl0 hl1 hl2).2.2.2.2.2⟩
  · intro now np data
    rw [hw28 now np data]
    exact ⟨update_irq_tfr _,
      (update_irq_spec { s with tfr := s.tfr &&& (compl64 data &&& 0x003f803f) }
        hmodel hl0 hl1 hl2).2.2.2.2.2⟩

/-- Witness for C2 at a concrete enabled timer (top = 2, comp = 1, cnt = 0)
    advanced by 3 ticks. -/
theorem tcu_timer_match_spec_witness :
    (⟨0, 0, 0, 2, 1, 0, 1, 0x10000, true, false, 0⟩ : TmrState).enabled = true ∧
    (⟨0, 0, 0, 0, 0, fun _ => ⟨⟨0, 0, 0, 2, 1, 0, 1, 0x10000, true, false, 0⟩, 0⟩,
      ⟨⟨0, 0, 0, 2, 1, 0, 1, 0x10000, true, false, 0⟩, 0⟩, 0, fun _ => false, 0x4755⟩ :
      TcuState).model = 0x4755 ∧
    (tmr_update_cnt 3 ⟨0, 0, 0, 2, 1, 0, 1, 0x10000, true, false, 0⟩
      ⟨0, 0, 0, 0, 0, fun _ => ⟨⟨0, 0, 0, 2, 1, 0, 1, 0x10000, true, false, 0⟩, 0⟩,
       ⟨⟨0, 0, 0, 2, 1, 0, 1, 0x10000, true, false, 0⟩, 0⟩, 0, fun _ => false, 0x4755⟩).1.cnt =
      (tmr_step 2)^[3] 0 :=
  ⟨by decide, by decide,
   (tcu_timer_match_spec 3 ⟨0, 0, 0, 2, 1, 0, 1, 0x10000, true, false, 0⟩
     ⟨0, 0, 0, 0, 0, fun _ => ⟨⟨0, 0, 0, 2, 1, 0, 1, 0x10000, true, false, 0⟩, 0⟩,
      ⟨⟨0, 0, 0, 2, 1, 0, 1, 0x10000, true, false, 0⟩, 0⟩, 0, fun _ => false, 0x4755⟩
     (by decide) (by decide) (by decide) (by decide) (by decide) (by decide)).1⟩

/-- Counterexample for C2 as stated: a TMSR write changes TMR but does not
    run update_irq, so output line 2 stays asserted although
    (TFR & ~TMR) & 0x001f001f has become 0. -/
theorem tcu_tmsr_write_stale_line :
    ((ingenic_tcu_write 0 0 0
      ⟨0, 0, 0, 1, 0, fun _ => ⟨⟨0, 0, 0, 0, 0, 0, 0, 0, false, false, 0⟩, 0⟩,
       ⟨⟨0, 0, 0, 0, 0, 0, 0, 0, false, false, 0⟩, 0⟩, 1, fun i => decide (i.val = 2), 0x4755⟩
      0x34 1).1.tmr = 1) ∧
    ((ingenic_tcu_write 0 0 0
      ⟨0, 0, 0, 1, 0, fun _ => ⟨⟨0, 0, 0, 0, 0, 0, 0, 0, false, false, 0⟩, 0⟩,
       ⟨⟨0, 0, 0, 0, 0, 0, 0, 0, false, false, 0⟩, 0⟩, 1, fun i => decide (i.val = 2), 0x4755⟩
      0x34 1).1.lines 2 = true) ∧
    (((ingenic_tcu_write 0 0 0
      ⟨0, 0, 0, 1, 0, fun _ => ⟨⟨0, 0, 0, 0, 0, 0, 0, 0, false, false, 0⟩, 0⟩,
       ⟨⟨0, 0, 0, 0, 0, 0, 0, 0, false, false, 0⟩, 0⟩, 1, fun i => decide (i.val = 2), 0x4755⟩
      0x34 1).1.tfr &&&
      compl32 (ingenic_tcu_write 0 0 0
      ⟨0, 0, 0, 1, 0, fun _ => ⟨⟨0, 0, 0, 0, 0, 0, 0, 0, false, false, 0⟩, 0⟩,
       ⟨⟨0, 0, 0, 0, 0, 0, 0, 0, false, false, 0⟩, 0⟩, 1, fun i => decide (i.val = 2), 0x4755⟩
      0x34 1).1.tmr) &&& 0x001f001f = 0) :=
  ⟨by decide, by decide, by decide⟩

/- ===================================================================== -/
/- Claim C3: interrupt-controller pending invariant                        -/
/- ===================================================================== -/

theorem intc_update_inv (s : IntcState) (hline : s.line = decide (s.icpr ≠ 0)) :
    (intc_update s).icpr = (intc_update s).icsr &&& compl32 (intc_update s).icmr ∧
    (intc_update s).line = decide ((intc_update s).icpr ≠ 0) := by
  unfold intc_update
  dsimp only
  split
  · exact ⟨rfl, rfl⟩
  · next hdz =>
    have heq : s.icpr = s.icsr &&& compl32 s.icmr :=
      Nat.xor_eq_zero.mp (not_not.mp hdz)
    exact ⟨rfl, by rw [hline, heq]⟩

/-- C3 (amended): in every state reachable from power-on by input IRQ line
    changes and guest register writes, ICPR = ICSR & ~ICMR and the output
    line is asserted exactly when ICPR is nonzero; a device reset always
    re-establishes ICPR = ICSR & ~ICMR, but does not touch the output line,
    so after a mid-run reset with an interrupt pending the line can stay
    asserted while ICPR is 0 (see the counterexample). -/
theorem intc_pending_invariant :
    (∀ s : IntcState, IntcReachable s →
      s.icpr = s.icsr &&& compl32 s.icmr ∧ s.line = decide (s.icpr ≠ 0)) ∧
    (∀ s : IntcState, (ingenic_intc_reset s).icpr =
      (ingenic_intc_reset s).icsr &&& compl32 (ingenic_intc_reset s).icmr) := by
  constructor
  · intro s h
    induction h with
    | init => exact ⟨by decide, by decide⟩
    | write s addr data hd h ih =>
      unfold ingenic_intc_write
      split
      · exact intc_update_inv _ ih.2
      · exact intc_update_inv _ ih.2
      · exact ih
      · exact ih
    | irq s n level h ih =>
      unfold intc_irq
      split
      · exact intc_update_inv _ ih.2
      · exact intc_update_inv _ ih.2
  · intro s
    show (0 : Nat) = 0 &&& compl32 0xffffffff
    rw [Nat.zero_and]

/-- Witness for C3 at the power-on state. -/
theorem intc_pending_invariant_witness :
    intc_init.icpr = intc_init.icsr &&& compl32 intc_init.icmr ∧
    intc_init.line = decide (intc_init.icpr ≠ 0) :=
  intc_pending_invariant.1 intc_init IntcReachable.init

/-- Counterexample for C3 as stated: unmask input 0 (ICMCR write), raise
    input 0 (line goes high), then reset: ICPR is 0 but the output line is
    still asserted, because ingenic_intc_reset never drives the line. -/
theorem intc_reset_stale_line :
    (ingenic_intc_reset (intc_irq (ingenic_intc_write intc_init 0x0c 1).1 0 true)).icpr = 0 ∧
    (ingenic_intc_reset (intc_irq (ingenic_intc_write intc_init 0x0c 1).1 0 true)).line = true :=
  ⟨by decide, by decide⟩

/- ===================================================================== -/
/- Claim C6: GPIO set/clear register algebra                               -/
/- ===================================================================== -/

theorem gpio_update_irq_frame (s : GpioState) (p : Nat) :
    (ingenic_gpio_update_irq s p).pin = s.pin ∧
    (ingenic_gpio_update_irq s p).dat = s.dat ∧
    (ingenic_gpio_update_irq s p).im = s.im ∧
    (ingenic_gpio_update_irq s p).pe = s.pe ∧
    (ingenic_gpio_update_irq s p).gfun = s.gfun ∧
    (ingenic_gpio_update_irq s p).sel = s.sel ∧
    (ingenic_gpio_update_irq s p).dir = s.dir ∧
    (ingenic_gpio_update_irq s p).trg = s.trg ∧
    (ingenic_gpio_update_irq s p).pendingRaise = s.pendingRaise ∧
    (ingenic_gpio_update_irq s p).pendingFall = s.pendingFall := by
  unfold ingenic_gpio_update_irq
  dsimp only
  split <;> exact ⟨rfl, rfl, rfl, rfl, rfl, rfl, rfl, rfl, rfl, rfl⟩

theorem gpio_update_irq_flg (s : GpioState) (p : Nat) :
    (ingenic_gpio_update_irq s p).flg =
      s.flg ||| (compl32 s.gfun &&& s.sel &&& s.trg &&& s.dir &&& (s.pin &&& compl32 p))
            ||| (compl32 s.gfun &&& s.sel &&& s.trg &&& compl32 s.dir &&& (compl32 s.pin &&& p))
            ||| (compl32 s.gfun &&& s.sel &&& compl32 s.trg &&& s.dir &&& s.pin)
            ||| (compl32 s.gfun &&& s.sel &&& compl32 s.trg &&& compl32 s.dir &&& compl32 s.pin) := by
  unfold ingenic_gpio_update_irq
  dsimp only
  split <;> rfl

theorem or_mod_idem (a v : Nat) :
    (((a ||| v) % 2 ^ 32) ||| v) % 2 ^ 32 = (a ||| v) % 2 ^ 32 := by
  apply Nat.eq_of_testBit_eq
  intro i
  simp only [Nat.testBit_mod_two_pow, Nat.testBit_or]
  by_cases h : i < 32
  · have hd : decide (i < 32) = true := decide_eq_true h
    simp only [hd, Bool.true_and]
    cases a.testBit i <;> cases v.testBit i <;> rfl
  · simp [h]

/-- or_mod_idem with the modulus in the numeral form produced by simp. -/
theorem or_mod_idem_n (a v : Nat) :
    (((a ||| v) % 4294967296) ||| v) % 4294967296 = (a ||| v) % 4294967296 :=
  or_mod_idem a v

theorem and_idem_right (a m : Nat) : a &&& m &&& m = a &&& m := by
  apply Nat.eq_of_testBit_eq
  intro i
  simp only [Nat.testBit_land]
  cases a.testBit i <;> cases m.testBit i <;> rfl

/-- C6 (amended): for every 32-bit value v, each GPIO register with
    set/clear companions (DAT, IM, PE, FUN, SEL, DIR, TRG) obeys the
    set/clear algebra: reading the base register after a set-write returns
    old | v, after a clear-write old & ~v, and repeating the same set- or
    clear-write is idempotent on that register.  Writing v to PADATS does
    clear the v bits of PAFLG, but ingenic_gpio_update_irq then re-latches
    the level-trigger terms, so the final PAFLG value is
    (flg & ~v) | level-trigger terms, not flg & ~v (see the
    counterexample). -/
theorem gpio_set_clear_algebra (s : GpioState) (v : Nat) (hv : v < 2 ^ 32)
    (hdat : s.dat < 2 ^ 32) (him : s.im < 2 ^ 32) (hpe : s.pe < 2 ^ 32)
    (hfun : s.gfun < 2 ^ 32) (hsel : s.sel < 2 ^ 32) (hdir : s.dir < 2 ^ 32)
    (htrg : s.trg < 2 ^ 32) (hflg : s.flg < 2 ^ 32) (hpin : s.pin < 2 ^ 32) :
    GpioSetClearSpec s v := by
  have hvm : v % 4294967296 = v := Nat.mod_eq_of_lt hv
  refine ⟨⟨?_, ?_, ?_, ?_⟩, ⟨?_, ?_, ?_, ?_⟩, ⟨?_, ?_, ?_, ?_⟩, ⟨?_, ?_, ?_, ?_⟩,
    ⟨?_, ?_, ?_, ?_⟩, ⟨?_, ?_, ?_, ?_⟩, ⟨?_, ?_, ?_, ?_⟩, ?_⟩
  · have h := Nat.mod_eq_of_lt (Nat.or_lt_two_pow hdat hv)
    simp [ingenic_gpio_write, ingenic_gpio_read, gpio_update_irq_frame, h]
  · have h := and_compl64_eq_and_compl32 s.dat v hdat
    simp [ingenic_gpio_write, ingenic_gpio_read, gpio_update_irq_frame, h, hvm]
  · simp [ingenic_gpio_write, gpio_update_irq_frame, or_mod_idem_n]
  · simp [ingenic_gpio_write, gpio_update_irq_frame, and_idem_right]
  · have h := Nat.mod_eq_of_lt (Nat.or_lt_two_pow him hv)
    simp [ingenic_gpio_write, ingenic_gpio_read, gpio_update_irq_frame, h]
  · have h := and_compl64_eq_and_compl32 s.im v him
    simp [ingenic_gpio_write, ingenic_gpio_read, gpio_update_irq_frame, h, hvm]
  · simp [ingenic_gpio_write, gpio_update_irq_frame, or_mod_idem_n]
  · simp [ingenic_gpio_write, gpio_update_irq_frame, and_idem_right]
  · have h := Nat.mod_eq_of_lt (Nat.or_lt_two_pow hpe hv)
    simp [ingenic_gpio_write, ingenic_gpio_read, gpio_update_irq_frame, h]
  · have h := and_compl64_eq_and_compl32 s.pe v hpe
    simp [ingenic_gpio_write, ingenic_gpio_read, gpio_update_irq_frame, h, hvm]
  · simp [ingenic_gpio_write, gpio_update_irq_frame, or_mod_idem_n]
  · simp [ingenic_gpio_write, gpio_update_irq_frame, and_idem_right]
  · have h := Nat.mod_eq_of_lt (Nat.or_lt_two_pow hfun hv)
    simp [ingenic_gpio_write, ingenic_gpio_read, gpio_update_irq_frame, h]
  · have h := and_compl64_eq_and_compl32 s.gfun v hfun
    simp [ingenic_gpio_write, ingenic_gpio_read, gpio_update_irq_frame, h, hvm]
  · simp [ingenic_gpio_write, gpio_update_irq_frame, or_mod_idem_n]
  · simp [ingenic_gpio_write, gpio_update_irq_frame, and_idem_right]
  · have h := Nat.mod_eq_of_lt (Nat.or_lt_two_pow hsel hv)
    simp [ingenic_gpio_write, ingenic_gpio_read, gpio_update_irq_frame, h]
  · have h := and_compl64_eq_and_compl32 s.sel v hsel
    simp [ingenic_gpio_write, ingenic_gpio_read, gpio_update_irq_frame, h, hvm]
  · simp [ingenic_gpio_write, gpio_update_irq_frame, or_mod_idem_n]
  · simp [ingenic_gpio_write, gpio_update_irq_frame, and_idem_right]
  · have h := Nat.mod_eq_of_lt (Nat.or_lt_two_pow hdir hv)
    simp [ingenic_gpio_write, ingenic_gpio_read, gpio_update_irq_frame, h]
  · have h := and_compl64_eq_and_compl32 s.dir v hdir
    simp [ingenic_gpio_write, ingenic_gpio_read, gpio_update_irq_frame, h, hvm]
  · simp [ingenic_gpio_write, gpio_update_irq_frame, or_mod_idem_n]
  · simp [ingenic_gpio_write, gpio_update_irq_frame, and_idem_right]
  · have h := Nat.mod_eq_of_lt (Nat.or_lt_two_pow htrg hv)
    simp [ingenic_gpio_write, ingenic_gpio_read, gpio_update_irq_frame, h]
  · have h := and_compl64_eq_and_compl32 s.trg v htrg
    simp [ingenic_gpio_write, ingenic_gpio_read, gpio_update_irq_frame, h, hvm]
  · simp [ingenic_gpio_write, gpio_update_irq_frame, or_mod_idem_n]
  · simp [ingenic_gpio_write, gpio_update_irq_frame, and_idem_right]
  · have hz1 := and_compl32_self s.pin hpin
    have hz2 := compl32_and_self s.pin hpin
    have hc := and_compl64_eq_and_compl32 s.flg v hflg
    simp [ingenic_gpio_write, gpio_update_irq_flg, hz1, hz2, hc, hvm,
      Nat.and_zero, Nat.or_zero]

/-- Witness for C6 at a concrete state and value. -/
theorem gpio_set_clear_algebra_witness :
    (0x0000f0f0 : Nat) < 2 ^ 32 ∧
    GpioSetClearSpec ⟨0x5, 0x3, 0xff00ff00, 0x1, 0x2, 0x7, 0x9, 0x30, 0x11, 0, 0, false⟩
      0x0000f0f0 :=
  ⟨by decide,
   gpio_set_clear_algebra ⟨0x5, 0x3, 0xff00ff00, 0x1, 0x2, 0x7, 0x9, 0x30, 0x11, 0, 0, false⟩
     0x0000f0f0 (by decide) (by decide) (by decide) (by decide) (by decide) (by decide)
     (by decide) (by decide) (by decide) (by decide)⟩

/-- Counterexample for C6 as stated: with pin 0 high and configured as a
    high-level-triggered interrupt (fun=0, sel=1, trg=0, dir=1), writing 1
    to PADATS clears PAFLG bit 0 but ingenic_gpio_update_irq immediately
    re-latches it, so both the stored flag register and a PAFLG read still
    have bit 0 set. -/
theorem gpio_padats_flg_reassert :
    ((ingenic_gpio_write ⟨1, 0, 0, 0, 0, 1, 1, 0, 1, 0, 0, false⟩ 0x14 1 4).1.flg &&& 1) = 1 ∧
    ((ingenic_gpio_read (ingenic_gpio_write ⟨1, 0, 0, 0, 0, 1, 1, 0, 1, 0, 0, false⟩
       0x14 1 4).1 0x80 4).2.1 &&& 1) = 1 :=
  ⟨by decide, by decide⟩

/- ===================================================================== -/
/- Claim C8: GPIO PAPIN read effect and read frame conditions              -/
/- ===================================================================== -/

/-- C8: reading PAPIN is not pure: it returns the current pin levels and
    consumes at most one latched pending transition per pin (per bit, a
    pending rise is applied only if the pin is currently low and a pending
    fall only if it is currently high, and exactly the applied transitions
    are cleared from pending_raise / pending_fall); only pin, pending_raise
    and pending_fall change.  Reads of every other decoded GPIO register
    leave the whole device state unchanged. -/
theorem gpio_read_effect_frame (s : GpioState) :
    (ingenic_gpio_read s 0x00 4).2.1 = s.pin ∧
    (ingenic_gpio_read s 0x00 4).2.2 = false ∧
    (∀ i : Nat, i < 32 →
      (ingenic_gpio_read s 0x00 4).1.pin.testBit i =
        ((s.pin.testBit i && !s.pendingFall.testBit i) ||
         (!s.pin.testBit i && s.pendingRaise.testBit i)) ∧
      (ingenic_gpio_read s 0x00 4).1.pendingRaise.testBit i =
        (s.pendingRaise.testBit i && s.pin.testBit i) ∧
      (ingenic_gpio_read s 0x00 4).1.pendingFall.testBit i =
        (s.pendingFall.testBit i && !s.pin.testBit i)) ∧
    ((ingenic_gpio_read s 0x00 4).1.dat = s.dat ∧
     (ingenic_gpio_read s 0x00 4).1.im = s.im ∧
     (ingenic_gpio_read s 0x00 4).1.pe = s.pe ∧
     (ingenic_gpio_read s 0x00 4).1.gfun = s.gfun ∧
     (ingenic_gpio_read s 0x00 4).1.sel = s.sel ∧
     (ingenic_gpio_read s 0x00 4).1.dir = s.dir ∧
     (ingenic_gpio_read s 0x00 4).1.trg = s.trg ∧
     (ingenic_gpio_read s 0x00 4).1.flg = s.flg ∧
     (ingenic_gpio_read s 0x00 4).1.prevIrqLevel = s.prevIrqLevel) ∧
    ((ingenic_gpio_read s 0x10 4).1 = s ∧
     (ingenic_gpio_read s 0x20 4).1 = s ∧
     (ingenic_gpio_read s 0x30 4).1 = s ∧
     (ingenic_gpio_read s 0x40 4).1 = s ∧
     (ingenic_gpio_read s 0x50 4).1 = s ∧
     (ingenic_gpio_read s 0x60 4).1 = s ∧
     (ingenic_gpio_read s 0x70 4).1 = s ∧
     (ingenic_gpio_read s 0x80 4).1 = s) := by
  refine ⟨by simp [ingenic_gpio_read], by simp [ingenic_gpio_read], ?_, ?_, ?_⟩
  · intro i hi
    have hd : decide (i < 32) = true := decide_eq_true hi
    refine ⟨?_, ?_, ?_⟩ <;>
      · simp [ingenic_gpio_read, compl32, Nat.testBit_land, Nat.testBit_or,
          Nat.testBit_xor, tb_mask32, hd]
        cases hp : s.pin.testBit i <;> cases hr : s.pendingRaise.testBit i <;>
          cases hf : s.pendingFall.testBit i <;> simp [hp, hr, hf]
  · refine ⟨?_, ?_, ?_, ?_, ?_, ?_, ?_, ?_, ?_⟩ <;> simp [ingenic_gpio_read]
  · refine ⟨?_, ?_, ?_, ?_, ?_, ?_, ?_, ?_⟩ <;> simp [ingenic_gpio_read]

/-- Witness for C8: the per-bit PAPIN characterization at a concrete state
    and bit, obtained from the claim theorem itself. -/
theorem gpio_read_effect_frame_witness :
    (0 : Nat) < 32 ∧
    (ingenic_gpio_read ⟨0x3, 0, 0, 0, 0, 0, 0, 0, 0, 0x5, 0x1, false⟩ 0x00 4).1.pin.testBit 0 =
      ((Nat.testBit 0x3 0 && !Nat.testBit 0x1 0) || (!Nat.testBit 0x3 0 && Nat.testBit 0x5 0)) :=
  ⟨by decide,
   ((gpio_read_effect_frame ⟨0x3, 0, 0, 0, 0, 0, 0, 0, 0, 0x5, 0x1, false⟩).2.2.1 0
     (by decide)).1⟩

/- ===================================================================== -/
/- Claim C7: RTC second-counter round trip                                 -/
/- ===================================================================== -/

/-- C7 (amended): writing v to RTCSR at host time t1 and reading RTCSR at
    host time t2 returns v plus the difference of the host clock second
    counts (t2 / 1e9 - t1 / 1e9) truncated to 32 bits — which is exactly v
    when the host clock reads the same second at both accesses, but is NOT
    in general the number of whole seconds elapsed, floor((t2 - t1) / 1e9)
    (see the counterexample). -/
theorem rtc_rtcsr_round_trip (t1 t2 v : Nat) (s : RtcState)
    (h12 : sec_of_ns t1 ≤ sec_of_ns t2) (hv : v < 2 ^ 32) :
    (ingenic_rtc_read t2 (ingenic_rtc_write t1 s 0x04 v).1 0x04).1 =
      (v + (sec_of_ns t2 - sec_of_ns t1)) % 2 ^ 32 ∧
    (sec_of_ns t1 = sec_of_ns t2 →
      (ingenic_rtc_read t2 (ingenic_rtc_write t1 s 0x04 v).1 0x04).1 = v) := by
  have hmain : (ingenic_rtc_read t2 (ingenic_rtc_write t1 s 0x04 v).1 0x04).1 =
      (v + (sec_of_ns t2 - sec_of_ns t1)) % 2 ^ 32 := by
    simp only [ingenic_rtc_write, ingenic_rtc_read]
    have e1 : (2 : Int) ^ 32 = 4294967296 := by norm_num
    have e2 : (2 : Nat) ^ 32 = 4294967296 := by norm_num
    simp only [e1, e2] at *
    generalize sec_of_ns t1 = a at *
    generalize sec_of_ns t2 = b at *
    omega
  refine ⟨hmain, fun heq => ?_⟩
  rw [hmain, heq, Nat.sub_self, Nat.add_zero]
  exact Nat.mod_eq_of_lt hv

/-- Witness for C7 at concrete times and value. -/
theorem rtc_rtcsr_round_trip_witness :
    sec_of_ns 1000000000 ≤ sec_of_ns 3500000000 ∧ (7 : Nat) < 2 ^ 32 ∧
    ((ingenic_rtc_read 3500000000
        (ingenic_rtc_write 1000000000 ⟨0, 0, 0, 0, 0, 0, 0, 0⟩ 0x04 7).1 0x04).1 =
      (7 + (sec_of_ns 3500000000 - sec_of_ns 1000000000)) % 2 ^ 32 ∧
     (sec_of_ns 1000000000 = sec_of_ns 3500000000 →
      (ingenic_rtc_read 3500000000
        (ingenic_rtc_write 1000000000 ⟨0, 0, 0, 0, 0, 0, 0, 0⟩ 0x04 7).1 0x04).1 = 7)) :=
  ⟨by decide, by decide,
   rtc_rtcsr_round_trip 1000000000 3500000000 7 ⟨0, 0, 0, 0, 0, 0, 0, 0⟩
     (by decide) (by decide)⟩

/-- Counterexample for C7 as stated: write 0 at t1 = 1.9 s, read at
    t2 = 2.1 s.  Only 0.2 s have elapsed, so the claim predicts 0, but the
    code subtracts whole-second counters (2 - 1) and returns 1. -/
theorem rtc_rtcsr_not_elapsed_seconds :
    (ingenic_rtc_read 2100000000
      (ingenic_rtc_write 1900000000 ⟨0, 0, 0, 0, 0, 0, 0, 0⟩ 0x04 0).1 0x04).1 = 1 ∧
    (0 + (2100000000 - 1900000000) / 1000000000) % 2 ^ 32 = 0 :=
  ⟨by decide, by decide⟩
